import Mathlib

/-!
# ARM helper routines (`qemu/target-arm/op_helper.c`)

A shallow embedding of the flag-setting arithmetic, barrel-shifter and
saturation helpers.  Machine words are natural numbers kept below `2^32`
(resp. `2^64`); every C operation that can wrap is followed by an explicit
reduction.  The ambient `env` pointer of the C code is threaded explicitly:
each helper takes the CPU state and returns its value together with the new
state.
-/

namespace ArmHelper

/-! ## Machine words -/

/-- Conversion of a mathematical integer to `uint32_t` (reduction mod `2^32`). -/
def u32 (z : Int) : Nat := (z % 2 ^ 32).toNat

/-- Conversion of a mathematical integer to `uint64_t` (reduction mod `2^64`). -/
def u64 (z : Int) : Nat := (z % 2 ^ 64).toNat

/-- The cast `(int32_t)x` of a 32-bit word: its two's-complement reading. -/
def s32 (x : Nat) : Int := if x % 2 ^ 32 < 2 ^ 31 then (x % 2 ^ 32 : Nat) else (x % 2 ^ 32 : Nat) - 2 ^ 32

/-- The cast `(int64_t)x` of a 64-bit word: its two's-complement reading. -/
def s64 (x : Nat) : Int := if x % 2 ^ 64 < 2 ^ 63 then (x % 2 ^ 64 : Nat) else (x % 2 ^ 64 : Nat) - 2 ^ 64

/-- The constant `#define SIGNBIT (uint32_t)0x80000000`. -/
def SIGNBIT : Nat := 0x80000000

/-- The constant `#define SIGNBIT64 ((uint64_t)1 << 63)`. -/
def SIGNBIT64 : Nat := 1 <<< 63

/-- The operator `~` on `uint32_t`. -/
def not32 (x : Nat) : Nat := 0xFFFFFFFF - x % 2 ^ 32

/-- The operator `~` on `uint64_t`. -/
def not64 (x : Nat) : Nat := 0xFFFFFFFFFFFFFFFF - x % 2 ^ 64

/-- A C comparison used as a value: `1` when true, `0` when false. -/
def b2n (p : Bool) : Nat := if p then 1 else 0

/-! ## CPU state -/

/-- The fields of `CPUARMState` touched by the helpers.  `NF`, `ZF`, `CF`,
`VF` and `QF` are the `uint32_t` flag words: N is bit 31 of `NF`, Z is
`ZF == 0`, C is `CF`, V is bit 31 of `VF`, Q is `QF`.  The field
`icount_decr` stands for the instruction-count bookkeeping of the common CPU
state, which the helpers of this file never write themselves. -/
structure CPUARMState where
  regs : Nat → Nat
  banked_r13 : Nat → Nat
  banked_r14 : Nat → Nat
  usr_regs : Nat → Nat
  uncached_cpsr : Nat
  NF : Nat
  ZF : Nat
  CF : Nat
  VF : Nat
  QF : Nat
  vfp_regs : Nat → Nat
  exception_index : Int
  halted : Nat
  icount_decr : Nat

/-- A reset state: every register and flag word is zero. -/
def env0 : CPUARMState :=
  { regs := fun _ => 0, banked_r13 := fun _ => 0, banked_r14 := fun _ => 0,
    usr_regs := fun _ => 0, uncached_cpsr := 0, NF := 0, ZF := 0, CF := 0, VF := 0,
    QF := 0, vfp_regs := fun _ => 0, exception_index := 0, halted := 0, icount_decr := 0 }

/-! ## State accessors -/

/-- Modelled from the spec: the macro `RR_cpu(env, CF)` is declared outside
this source file; it reads the carry flag word of the current context. -/
def RR_cpu_CF (env : CPUARMState) : Nat := env.CF

/-- Modelled from the spec: the macro `WR_cpu(env, NF, v)` is declared outside
this source file; it stores `v` in the N flag word of the current context. -/
def WR_cpu_NF (env : CPUARMState) (v : Nat) : CPUARMState := { env with NF := v }

/-- Modelled from the spec: the macro `WR_cpu(env, ZF, v)` is declared outside
this source file; it stores `v` in the Z flag word of the current context. -/
def WR_cpu_ZF (env : CPUARMState) (v : Nat) : CPUARMState := { env with ZF := v }

/-- Modelled from the spec: the macro `WR_cpu(env, CF, v)` is declared outside
this source file; it stores `v` in the carry flag word of the current context. -/
def WR_cpu_CF (env : CPUARMState) (v : Nat) : CPUARMState := { env with CF := v }

/-- Modelled from the spec: the macro `WR_cpu(env, VF, v)` is declared outside
this source file; it stores `v` in the V flag word of the current context. -/
def WR_cpu_VF (env : CPUARMState) (v : Nat) : CPUARMState := { env with VF := v }

/-! ## Flag-setting arithmetic -/

/-- C function `uint32_t HELPER(add_cc)(uint32_t a, uint32_t b)`. -/
def add_cc (env : CPUARMState) (a b : Nat) : Nat × CPUARMState :=
  let result := u32 ((a : Int) + b)
  let env := WR_cpu_NF env result
  let env := WR_cpu_ZF env result
  let env := WR_cpu_CF env (b2n (decide (result < a)))
  let env := WR_cpu_VF env ((a ^^^ b ^^^ 0xFFFFFFFF) &&& (a ^^^ result))
  (result, env)

/-- C function `uint32_t HELPER(adc_cc)(uint32_t a, uint32_t b)`. -/
def adc_cc (env : CPUARMState) (a b : Nat) : Nat × CPUARMState :=
  let (result, env) :=
    if RR_cpu_CF env = 0 then
      let result := u32 ((a : Int) + b)
      (result, WR_cpu_CF env (b2n (decide (result < a))))
    else
      let result := u32 ((a : Int) + b + 1)
      (result, WR_cpu_CF env (b2n (decide (result ≤ a))))
  let env := WR_cpu_VF env ((a ^^^ b ^^^ 0xFFFFFFFF) &&& (a ^^^ result))
  let env := WR_cpu_NF env result
  let env := WR_cpu_ZF env result
  (result, env)

/-- C function `uint32_t HELPER(sub_cc)(uint32_t a, uint32_t b)`. -/
def sub_cc (env : CPUARMState) (a b : Nat) : Nat × CPUARMState :=
  let result := u32 ((a : Int) - b)
  let env := WR_cpu_NF env result
  let env := WR_cpu_ZF env result
  let env := WR_cpu_CF env (b2n (decide (a ≥ b)))
  let env := WR_cpu_VF env ((a ^^^ b) &&& (a ^^^ result))
  (result, env)

/-- C function `uint32_t HELPER(sbc_cc)(uint32_t a, uint32_t b)`. -/
def sbc_cc (env : CPUARMState) (a b : Nat) : Nat × CPUARMState :=
  let (result, env) :=
    if RR_cpu_CF env = 0 then
      let result := u32 ((a : Int) - b - 1)
      (result, WR_cpu_CF env (b2n (decide (a > b))))
    else
      let result := u32 ((a : Int) - b)
      (result, WR_cpu_CF env (b2n (decide (a ≥ b))))
  let env := WR_cpu_VF env ((a ^^^ b) &&& (a ^^^ result))
  let env := WR_cpu_NF env result
  let env := WR_cpu_ZF env result
  (result, env)

/-! ## Variable shifts with carry-out -/

/-- C function `uint32_t HELPER(shl_cc)(uint32_t x, uint32_t i)`. -/
def shl_cc (env : CPUARMState) (x i : Nat) : Nat × CPUARMState :=
  let shift := i &&& 0xff
  if shift ≥ 32 then
    if shift = 32 then
      (0, WR_cpu_CF env (x &&& 1))
    else
      (0, WR_cpu_CF env 0)
  else if shift ≠ 0 then
    ((x <<< shift) % 2 ^ 32, WR_cpu_CF env ((x >>> (32 - shift)) &&& 1))
  else
    (x, env)

/-- C function `uint32_t HELPER(shr_cc)(uint32_t x, uint32_t i)`. -/
def shr_cc (env : CPUARMState) (x i : Nat) : Nat × CPUARMState :=
  let shift := i &&& 0xff
  if shift ≥ 32 then
    if shift = 32 then
      (0, WR_cpu_CF env ((x >>> 31) &&& 1))
    else
      (0, WR_cpu_CF env 0)
  else if shift ≠ 0 then
    (x >>> shift, WR_cpu_CF env ((x >>> (shift - 1)) &&& 1))
  else
    (x, env)

/-- C function `uint32_t HELPER(sar_cc)(uint32_t x, uint32_t i)`; the shift of the
`int32_t` value is arithmetic. -/
def sar_cc (env : CPUARMState) (x i : Nat) : Nat × CPUARMState :=
  let shift := i &&& 0xff
  if shift ≥ 32 then
    (u32 (s32 x >>> (31 : Nat)), WR_cpu_CF env ((x >>> 31) &&& 1))
  else if shift ≠ 0 then
    (u32 (s32 x >>> shift), WR_cpu_CF env ((x >>> (shift - 1)) &&& 1))
  else
    (x, env)

/-- C function `uint32_t HELPER(ror_cc)(uint32_t x, uint32_t i)`. -/
def ror_cc (env : CPUARMState) (x i : Nat) : Nat × CPUARMState :=
  let shift1 := i &&& 0xff
  let shift := shift1 &&& 0x1f
  if shift = 0 then
    if shift1 ≠ 0 then
      (x, WR_cpu_CF env ((x >>> 31) &&& 1))
    else
      (x, env)
  else
    ((x >>> shift) ||| ((x <<< (32 - shift)) % 2 ^ 32),
      WR_cpu_CF env ((x >>> (shift - 1)) &&& 1))

/-! ## Saturating arithmetic -/

/-- C function `uint32_t HELPER(add_saturate)(uint32_t a, uint32_t b)`. -/
def add_saturate (env : CPUARMState) (a b : Nat) : Nat × CPUARMState :=
  let res := u32 ((a : Int) + b)
  if ((res ^^^ a) &&& SIGNBIT) ≠ 0 ∧ ((a ^^^ b) &&& SIGNBIT) = 0 then
    (not32 (u32 (s32 a >>> (31 : Nat)) ^^^ SIGNBIT), { env with QF := 1 })
  else
    (res, env)

/-- C function `uint32_t HELPER(sub_saturate)(uint32_t a, uint32_t b)`. -/
def sub_saturate (env : CPUARMState) (a b : Nat) : Nat × CPUARMState :=
  let res := u32 ((a : Int) - b)
  if ((res ^^^ a) &&& SIGNBIT) ≠ 0 ∧ ((a ^^^ b) &&& SIGNBIT) ≠ 0 then
    (not32 (u32 (s32 a >>> (31 : Nat)) ^^^ SIGNBIT), { env with QF := 1 })
  else
    (res, env)

/-- C function `uint32_t HELPER(double_saturate)(int32_t val)`; the argument is the
signed value, and `val << 1` is the multiplication by `2^1` truncated to 32
bits. -/
def double_saturate (env : CPUARMState) (val : Int) : Nat × CPUARMState :=
  if val ≥ 0x40000000 then
    (not32 SIGNBIT, { env with QF := 1 })
  else if val ≤ s32 0xc0000000 then
    (SIGNBIT, { env with QF := 1 })
  else
    (u32 (val * 2 ^ 1), env)

/-- C function `uint32_t HELPER(add_usaturate)(uint32_t a, uint32_t b)`. -/
def add_usaturate (env : CPUARMState) (a b : Nat) : Nat × CPUARMState :=
  let res := u32 ((a : Int) + b)
  if res < a then
    (not32 0, { env with QF := 1 })
  else
    (res, env)

/-- C function `uint32_t HELPER(sub_usaturate)(uint32_t a, uint32_t b)`. -/
def sub_usaturate (env : CPUARMState) (a b : Nat) : Nat × CPUARMState :=
  let res := u32 ((a : Int) - b)
  if res > a then
    (0, { env with QF := 1 })
  else
    (res, env)

/-- C function `uint64_t HELPER(neon_add_saturate_s64)(uint64_t src1, uint64_t src2)`. -/
def neon_add_saturate_s64 (env : CPUARMState) (src1 src2 : Nat) : Nat × CPUARMState :=
  let res := u64 ((src1 : Int) + src2)
  if ((res ^^^ src1) &&& SIGNBIT64) ≠ 0 ∧ ((src1 ^^^ src2) &&& SIGNBIT64) = 0 then
    (u64 (s64 src1 >>> (63 : Nat)) ^^^ not64 SIGNBIT64, { env with QF := 1 })
  else
    (res, env)

/-- C function `uint64_t HELPER(neon_add_saturate_u64)(uint64_t src1, uint64_t src2)`. -/
def neon_add_saturate_u64 (env : CPUARMState) (src1 src2 : Nat) : Nat × CPUARMState :=
  let res := u64 ((src1 : Int) + src2)
  if res < src1 then
    (not64 0, { env with QF := 1 })
  else
    (res, env)

/-- C function `uint64_t HELPER(neon_sub_saturate_s64)(uint64_t src1, uint64_t src2)`. -/
def neon_sub_saturate_s64 (env : CPUARMState) (src1 src2 : Nat) : Nat × CPUARMState :=
  let res := u64 ((src1 : Int) - src2)
  if ((res ^^^ src1) &&& SIGNBIT64) ≠ 0 ∧ ((src1 ^^^ src2) &&& SIGNBIT64) ≠ 0 then
    (u64 (s64 src1 >>> (63 : Nat)) ^^^ not64 SIGNBIT64, { env with QF := 1 })
  else
    (res, env)

/-- C function `uint64_t HELPER(neon_sub_saturate_u64)(uint64_t src1, uint64_t src2)`. -/
def neon_sub_saturate_u64 (env : CPUARMState) (src1 src2 : Nat) : Nat × CPUARMState :=
  if src1 < src2 then
    (0, { env with QF := 1 })
  else
    (u64 ((src1 : Int) - src2), env)

/-! ## Variable shifts without flags -/

/-- C function `uint32_t HELPER(shl)(uint32_t x, uint32_t i)`. -/
def shl (env : CPUARMState) (x i : Nat) : Nat × CPUARMState :=
  let shift := i &&& 0xff
  if shift ≥ 32 then
    (0, env)
  else
    ((x <<< shift) % 2 ^ 32, env)

/-- C function `uint32_t HELPER(shr)(uint32_t x, uint32_t i)`. -/
def shr (env : CPUARMState) (x i : Nat) : Nat × CPUARMState :=
  let shift := i &&& 0xff
  if shift ≥ 32 then
    (0, env)
  else
    (x >>> shift, env)

/-- C function `uint32_t HELPER(sar)(uint32_t x, uint32_t i)`. -/
def sar (env : CPUARMState) (x i : Nat) : Nat × CPUARMState :=
  let shift := i &&& 0xff
  let shift := if shift ≥ 32 then 31 else shift
  (u32 (s32 x >>> shift), env)

/-! ## Bit-width saturation -/

/-- The cast `(int16_t)x`: the low halfword read in two's complement. -/
def s16 (x : Nat) : Int := if x % 2 ^ 16 < 2 ^ 15 then (x % 2 ^ 16 : Nat) else (x % 2 ^ 16 : Nat) - 2 ^ 16

/-- C function `uint32_t HELPER(add_setq)(uint32_t a, uint32_t b)`. -/
def add_setq (env : CPUARMState) (a b : Nat) : Nat × CPUARMState :=
  let res := u32 ((a : Int) + b)
  if ((res ^^^ a) &&& SIGNBIT) ≠ 0 ∧ ((a ^^^ b) &&& SIGNBIT) = 0 then
    (res, { env with QF := 1 })
  else
    (res, env)

/-- C function `static inline uint32_t do_ssat(int32_t val, int shift)`; `top`
is the arithmetic shift of `val`, `mask` is `(1u << shift) - 1`. -/
def do_ssat (env : CPUARMState) (val : Int) (shift : Nat) : Nat × CPUARMState :=
  let top : Int := val >>> shift
  let mask : Nat := u32 ((((1 <<< shift) % 2 ^ 32 : Nat) : Int) - 1)
  if top > 0 then
    (mask, { env with QF := 1 })
  else if top < -1 then
    (not32 mask, { env with QF := 1 })
  else
    (u32 val, env)

/-- C function `static inline uint32_t do_usat(int32_t val, int shift)`; the
comparison `val > max` is made on `uint32_t`. -/
def do_usat (env : CPUARMState) (val : Int) (shift : Nat) : Nat × CPUARMState :=
  let max : Nat := u32 ((((1 <<< shift) % 2 ^ 32 : Nat) : Int) - 1)
  if val < 0 then
    (0, { env with QF := 1 })
  else if u32 val > max then
    (max, { env with QF := 1 })
  else
    (u32 val, env)

/-- C function `uint32_t HELPER(ssat)(uint32_t x, uint32_t shift)`. -/
def ssat (env : CPUARMState) (x shift : Nat) : Nat × CPUARMState :=
  do_ssat env (s32 x) shift

/-- C function `uint32_t HELPER(ssat16)(uint32_t x, uint32_t shift)`. -/
def ssat16 (env : CPUARMState) (x shift : Nat) : Nat × CPUARMState :=
  let (lo, env) := do_ssat env (s16 x) shift
  let res := lo % 2 ^ 16
  let (hi, env) := do_ssat env (s32 x >>> (16 : Nat)) shift
  let res := res ||| ((hi <<< 16) % 2 ^ 32)
  (res, env)

/-- C function `uint32_t HELPER(usat)(uint32_t x, uint32_t shift)`. -/
def usat (env : CPUARMState) (x shift : Nat) : Nat × CPUARMState :=
  do_usat env (s32 x) shift

/-- C function `uint32_t HELPER(usat16)(uint32_t x, uint32_t shift)`. -/
def usat16 (env : CPUARMState) (x shift : Nat) : Nat × CPUARMState :=
  let (lo, env) := do_usat env (s16 x) shift
  let res := lo % 2 ^ 16
  let (hi, env) := do_usat env (s32 x >>> (16 : Nat)) shift
  let res := res ||| ((hi <<< 16) % 2 ^ 32)
  (res, env)

/-! ## Table lookup -/

/-- One iteration of the loop of `neon_tbl` at bit offset `shift`: the lane
index is looked up in the table of 64-bit registers starting at `rn`, or the
lane of `dflt` (the C parameter `def`) is taken. -/
def neon_tbl_step (env : CPUARMState) (ireg dflt rn maxindex : Nat) (val shift : Nat) : Nat :=
  let table : Nat → Nat := fun j => env.vfp_regs (rn + j)
  let index := (ireg >>> shift) &&& 0xff
  if index < maxindex then
    let tmp := ((table (index >>> 3)) >>> ((index &&& 7) <<< 3)) &&& 0xff
    val ||| ((tmp <<< shift) % 2 ^ 32)
  else
    val ||| (dflt &&& ((0xff <<< shift) % 2 ^ 32))

/-- C function `uint32_t HELPER(neon_tbl)(uint32_t ireg, uint32_t def,
uint32_t rn, uint32_t maxindex)`; the loop `for (shift = 0; shift < 32;
shift += 8)` runs over the offsets 0, 8, 16, 24. -/
def neon_tbl (env : CPUARMState) (ireg dflt rn maxindex : Nat) : Nat × CPUARMState :=
  let val := [0, 8, 16, 24].foldl (neon_tbl_step env ireg dflt rn maxindex) 0
  (val, env)

/-- Byte `k` of a word, little-endian: bits `8k .. 8k+7`. -/
def byte (k x : Nat) : Nat := x / 2 ^ (8 * k) % 256

/-- Reference reading of the table of `neon_tbl`: byte `idx` of the sequence
of 64-bit registers starting at register `rn`, that is byte `idx mod 8` of
the 64-bit word `floor(idx / 8)`. -/
def table_byte (env : CPUARMState) (rn idx : Nat) : Nat :=
  byte (idx % 8) (env.vfp_regs (rn + idx / 8))

/-! ## User-mode register access -/

/-- C function `uint32_t HELPER(get_user_reg)(uint32_t regno)`.  The constant
`ARM_CPU_MODE_FIQ` is declared outside this source file and is taken as a
parameter; `RR_cpu(env, f)` reads the field `f` of the current context. -/
def get_user_reg (ARM_CPU_MODE_FIQ : Nat) (env : CPUARMState) (regno : Nat) :
    Nat × CPUARMState :=
  if regno = 13 then
    (env.banked_r13 0, env)
  else if regno = 14 then
    (env.banked_r14 0, env)
  else if regno = 15 then
    (env.regs regno, env)
  else if regno ≥ 8 ∧ (env.uncached_cpsr &&& 0x1f) = ARM_CPU_MODE_FIQ then
    (env.usr_regs (regno - 8), env)
  else
    (env.regs regno, env)

/-- C function `void HELPER(set_user_reg)(uint32_t regno, uint32_t val)`;
`WR_cpu(env, f, v)` stores `v` in the field `f` of the current context. -/
def set_user_reg (ARM_CPU_MODE_FIQ : Nat) (env : CPUARMState) (regno val : Nat) :
    CPUARMState :=
  if regno = 13 then
    { env with banked_r13 := Function.update env.banked_r13 0 val }
  else if regno = 14 then
    { env with banked_r14 := Function.update env.banked_r14 0 val }
  else if regno = 15 then
    { env with regs := Function.update env.regs regno val }
  else if regno ≥ 8 ∧ (env.uncached_cpsr &&& 0x1f) = ARM_CPU_MODE_FIQ then
    { env with usr_regs := Function.update env.usr_regs (regno - 8) val }
  else
    { env with regs := Function.update env.regs regno val }

/-! ## Shifts with a checked count

In C a shift of a 32-bit operand is defined only for a count in 0..31.  The
definitions below repeat the helpers with every shift operator replaced by a
checked one, so that a helper yields `none` exactly when it executes a shift
whose count is out of range. -/

/-- The operator `x << n` on `uint32_t`, defined for `n` in 0..31. -/
def shl_chk (x n : Nat) : Option Nat := if n < 32 then some ((x <<< n) % 2 ^ 32) else none

/-- The operator `x >> n` on `uint32_t`, defined for `n` in 0..31. -/
def shr_chk (x n : Nat) : Option Nat := if n < 32 then some (x >>> n) else none

/-- The operator `v >> n` on `int32_t`, defined for `n` in 0..31. -/
def sar_chk (v : Int) (n : Nat) : Option Int := if n < 32 then some (v >>> n) else none

/-- Checked form of `shl`. -/
def shl_checked (env : CPUARMState) (x i : Nat) : Option (Nat × CPUARMState) :=
  let shift := i &&& 0xff
  if shift ≥ 32 then
    some (0, env)
  else do
    let r ← shl_chk x shift
    some (r, env)

/-- Checked form of `shr`. -/
def shr_checked (env : CPUARMState) (x i : Nat) : Option (Nat × CPUARMState) :=
  let shift := i &&& 0xff
  if shift ≥ 32 then
    some (0, env)
  else do
    let r ← shr_chk x shift
    some (r, env)

/-- Checked form of `sar`. -/
def sar_checked (env : CPUARMState) (x i : Nat) : Option (Nat × CPUARMState) :=
  let shift := i &&& 0xff
  let shift := if shift ≥ 32 then 31 else shift
  do
    let r ← sar_chk (s32 x) shift
    some (u32 r, env)

/-- Checked form of `shl_cc`. -/
def shl_cc_checked (env : CPUARMState) (x i : Nat) : Option (Nat × CPUARMState) :=
  let shift := i &&& 0xff
  if shift ≥ 32 then
    if shift = 32 then
      some (0, WR_cpu_CF env (x &&& 1))
    else
      some (0, WR_cpu_CF env 0)
  else if shift ≠ 0 then do
    let c ← shr_chk x (32 - shift)
    let r ← shl_chk x shift
    some (r, WR_cpu_CF env (c &&& 1))
  else
    some (x, env)

/-- Checked form of `shr_cc`. -/
def shr_cc_checked (env : CPUARMState) (x i : Nat) : Option (Nat × CPUARMState) :=
  let shift := i &&& 0xff
  if shift ≥ 32 then
    if shift = 32 then do
      let c ← shr_chk x 31
      some (0, WR_cpu_CF env (c &&& 1))
    else
      some (0, WR_cpu_CF env 0)
  else if shift ≠ 0 then do
    let c ← shr_chk x (shift - 1)
    let r ← shr_chk x shift
    some (r, WR_cpu_CF env (c &&& 1))
  else
    some (x, env)

/-- Checked form of `sar_cc`. -/
def sar_cc_checked (env : CPUARMState) (x i : Nat) : Option (Nat × CPUARMState) :=
  let shift := i &&& 0xff
  if shift ≥ 32 then do
    let c ← shr_chk x 31
    let r ← sar_chk (s32 x) 31
    some (u32 r, WR_cpu_CF env (c &&& 1))
  else if shift ≠ 0 then do
    let c ← shr_chk x (shift - 1)
    let r ← sar_chk (s32 x) shift
    some (u32 r, WR_cpu_CF env (c &&& 1))
  else
    some (x, env)

/-- Checked form of `ror_cc`. -/
def ror_cc_checked (env : CPUARMState) (x i : Nat) : Option (Nat × CPUARMState) :=
  let shift1 := i &&& 0xff
  let shift := shift1 &&& 0x1f
  if shift = 0 then
    if shift1 ≠ 0 then do
      let c ← shr_chk x 31
      some (x, WR_cpu_CF env (c &&& 1))
    else
      some (x, env)
  else do
    let c ← shr_chk x (shift - 1)
    let lo ← shr_chk x shift
    let hi ← shl_chk x (32 - shift)
    some (lo ||| hi, WR_cpu_CF env (c &&& 1))

/-- Checked form of `do_ssat`. -/
def do_ssat_checked (env : CPUARMState) (val : Int) (shift : Nat) :
    Option (Nat × CPUARMState) := do
  let top ← sar_chk val shift
  let one ← shl_chk 1 shift
  let mask : Nat := u32 ((one : Int) - 1)
  if top > 0 then
    some (mask, { env with QF := 1 })
  else if top < -1 then
    some (not32 mask, { env with QF := 1 })
  else
    some (u32 val, env)

/-- Checked form of `do_usat`. -/
def do_usat_checked (env : CPUARMState) (val : Int) (shift : Nat) :
    Option (Nat × CPUARMState) := do
  let one ← shl_chk 1 shift
  let max : Nat := u32 ((one : Int) - 1)
  if val < 0 then
    some (0, { env with QF := 1 })
  else if u32 val > max then
    some (max, { env with QF := 1 })
  else
    some (u32 val, env)

/-- Checked form of `ssat`. -/
def ssat_checked (env : CPUARMState) (x shift : Nat) : Option (Nat × CPUARMState) :=
  do_ssat_checked env (s32 x) shift

/-- Checked form of `usat`. -/
def usat_checked (env : CPUARMState) (x shift : Nat) : Option (Nat × CPUARMState) :=
  do_usat_checked env (s32 x) shift

/-- Checked form of `ssat16`. -/
def ssat16_checked (env : CPUARMState) (x shift : Nat) : Option (Nat × CPUARMState) := do
  let (lo, env) ← do_ssat_checked env (s16 x) shift
  let res := lo % 2 ^ 16
  let top ← sar_chk (s32 x) 16
  let (hi, env) ← do_ssat_checked env top shift
  let hi16 ← shl_chk hi 16
  some (res ||| hi16, env)

/-- Checked form of `usat16`. -/
def usat16_checked (env : CPUARMState) (x shift : Nat) : Option (Nat × CPUARMState) := do
  let (lo, env) ← do_usat_checked env (s16 x) shift
  let res := lo % 2 ^ 16
  let top ← sar_chk (s32 x) 16
  let (hi, env) ← do_usat_checked env top shift
  let hi16 ← shl_chk hi 16
  some (res ||| hi16, env)

/-! ## Soft-MMU fault resolution -/

/-- Calls made by `tlb_fill` to its collaborators, in program order. -/
inductive Event where
  | on_tlb_miss (addr : Nat) (is_write : Int)
  | restore_icount
  | restore_state (tb : Nat) (pc : Nat)
  | on_page_fault (addr : Nat) (is_write : Int)
  | raise (tt : Int)
  deriving DecidableEq

/-- The globals read and written by `tlb_fill`: the ambient pointer `env`, the
pointer `cpu_single_env`, the CPU states they point to, and the record of
collaborator calls. -/
structure Machine where
  env : Nat
  cpu_single_env : Nat
  cpu : Nat → CPUARMState
  log : List Event

/-- The collaborators of `tlb_fill` that are declared outside this source
file, taken as parameters: the MMU walker (returning its status and the CPU
state it leaves), the translated-block lookup (a block handle or nothing),
the precise-state reconstruction, the S2E instruction-count restore and the
global `use_icount`. -/
structure Collab where
  cpu_arm_handle_mmu_fault : CPUARMState → Nat → Int → Int → Int → Int × CPUARMState
  tb_find_pc : Nat → Option Nat
  cpu_restore_state : Nat → CPUARMState → Nat → CPUARMState
  cpu_restore_icount : CPUARMState → CPUARMState
  use_icount : Int

/-- How a call ends: it returns to its caller, or `cpu_loop_exit` abandons the
call stack and control goes back to the dispatch loop. -/
inductive Outcome where
  | returned (m : Machine)
  | exited (m : Machine)

/-- Store into the CPU state the ambient pointer `env` points to. -/
def Machine.store (m : Machine) (st : CPUARMState) : Machine :=
  { m with cpu := Function.update m.cpu m.env st }

/-- Append a collaborator call to the record. -/
def Machine.emit (m : Machine) (e : Event) : Machine :=
  { m with log := m.log ++ [e] }

/-- Modelled from the spec: the observer hook `s2e_on_tlb_miss` is declared
outside this source file; it is side-effect-only and alters neither control
flow nor CPU state, so only the call is recorded. -/
def s2e_on_tlb_miss (m : Machine) (addr : Nat) (is_write : Int) : Machine :=
  m.emit (Event.on_tlb_miss addr is_write)

/-- Modelled from the spec: the observer hook `s2e_on_page_fault` is declared
outside this source file; it is side-effect-only and alters neither control
flow nor CPU state, so only the call is recorded. -/
def s2e_on_page_fault (m : Machine) (addr : Nat) (is_write : Int) : Machine :=
  m.emit (Event.on_page_fault addr is_write)

/-- C function `void raise_exception(int tt)`: stores `tt` in
`env->exception_index` and calls `cpu_loop_exit`, which does not return. -/
def raise_exception (m : Machine) (tt : Int) : Outcome :=
  let m := m.store { (m.cpu m.env) with exception_index := tt }
  Outcome.exited (m.emit (Event.raise tt))

/-- C function `void tlb_fill(target_ulong addr, target_ulong page_addr,
int is_write, int mmu_idx, void *retaddr)`; `CONFIG_S2E` selects the
conditionally compiled parts, and a null `retaddr` is 0. -/
def tlb_fill (c : Collab) (CONFIG_S2E : Bool) (m : Machine) (addr page_addr : Nat)
    (is_write mmu_idx : Int) (retaddr : Nat) : Outcome :=
  let saved_env := m.env
  let m := if m.env ≠ m.cpu_single_env then { m with env := m.cpu_single_env } else m
  let m := if CONFIG_S2E then s2e_on_tlb_miss m addr is_write else m
  let walk := c.cpu_arm_handle_mmu_fault (m.cpu m.env)
    (if CONFIG_S2E then page_addr else addr) is_write mmu_idx 1
  let ret := walk.1
  let m := m.store walk.2
  if ret ≠ 0 then
    let m :=
      if CONFIG_S2E = true ∧ c.use_icount ≠ 0 then
        (m.store (c.cpu_restore_icount (m.cpu m.env))).emit Event.restore_icount
      else m
    let m :=
      if retaddr ≠ 0 then
        let pc := retaddr
        match c.tb_find_pc pc with
        | some tb =>
          (m.store (c.cpu_restore_state tb (m.cpu m.env) pc)).emit (Event.restore_state tb pc)
        | none => m
      else m
    let m := if CONFIG_S2E then s2e_on_page_fault m addr is_write else m
    raise_exception m (m.cpu m.env).exception_index
  else
    let m := if saved_env ≠ m.env then { m with env := saved_env } else m
    Outcome.returned m

/-- The MMU walk made by `tlb_fill`: the walker runs on the CPU state that
`cpu_single_env` points to, with `page_addr` under `CONFIG_S2E` and `addr`
otherwise. -/
def tlb_walk (c : Collab) (cfg : Bool) (m : Machine) (addr page_addr : Nat)
    (is_write mmu_idx : Int) : Int × CPUARMState :=
  c.cpu_arm_handle_mmu_fault (m.cpu m.cpu_single_env)
    (if cfg then page_addr else addr) is_write mmu_idx 1

/-- Reference description of the CPU state at the raise on the failure path:
the state `st` left by the walker, passed through `cpu_restore_icount` under
`CONFIG_S2E` when `use_icount` is set, then through `cpu_restore_state` when a
return address is supplied and a block is found for it. -/
def fail_state (c : Collab) (cfg : Bool) (st : CPUARMState) (retaddr : Nat) : CPUARMState :=
  let st1 := if cfg = true ∧ c.use_icount ≠ 0 then c.cpu_restore_icount st else st
  if retaddr ≠ 0 then
    match c.tb_find_pc retaddr with
    | some tb => c.cpu_restore_state tb st1 retaddr
    | none => st1
  else st1

/-- Reference description of the collaborator calls on the failure path, up
to the raise. -/
def fail_events (c : Collab) (cfg : Bool) (addr : Nat) (is_write : Int) (retaddr : Nat) :
    List Event :=
  (if cfg then [Event.on_tlb_miss addr is_write] else []) ++
  (if cfg = true ∧ c.use_icount ≠ 0 then [Event.restore_icount] else []) ++
  (if retaddr ≠ 0 then
    match c.tb_find_pc retaddr with
    | some tb => [Event.restore_state tb retaddr]
    | none => []
  else []) ++
  (if cfg then [Event.on_page_fault addr is_write] else [])

/-- The machine an outcome ends in. -/
def Outcome.machine : Outcome → Machine
  | Outcome.returned m => m
  | Outcome.exited m => m

/-- Whether the call ended in the non-local exit. -/
def Outcome.exits : Outcome → Bool
  | Outcome.returned _ => false
  | Outcome.exited _ => true

/-- Sample collaborators: the walker reports `ret` and leaves
`exception_index = 4`, no translated block is ever found, and the
instruction-count restore advances `icount_decr`. -/
def sample_collab (ret : Int) (icount : Int) : Collab :=
  { cpu_arm_handle_mmu_fault := fun st _ _ _ _ => (ret, { st with exception_index := 4 }),
    tb_find_pc := fun _ => none,
    cpu_restore_state := fun _ st _ => st,
    cpu_restore_icount := fun st => { st with icount_decr := st.icount_decr + 1 },
    use_icount := icount }

/-- A machine with one CPU in the reset state and an empty call record. -/
def machine0 : Machine :=
  { env := 0, cpu_single_env := 0, cpu := fun _ => env0, log := [] }

/-! ## Flag predicates -/

/-- The four primary flag words of `env1` are those of `env`. -/
def same_nzcv (env env1 : CPUARMState) : Prop :=
  env1.NF = env.NF ∧ env1.ZF = env.ZF ∧ env1.CF = env.CF ∧ env1.VF = env.VF

/-! ## Basic facts about words -/

theorem testBit31 (x : Nat) (hx : x < 2 ^ 32) : x.testBit 31 = true ↔ 2147483648 ≤ x := by
  rw [Nat.testBit_to_div_mod]
  simp only [decide_eq_true_eq]
  omega

theorem u32_lt (z : Int) : u32 z < 2 ^ 32 := by
  unfold u32; omega

theorem s32_of_lt (x : Nat) (hx : x < 2 ^ 32) :
    s32 x = if x < 2 ^ 31 then (x : Int) else (x : Int) - 2 ^ 32 := by
  unfold s32; rw [Nat.mod_eq_of_lt hx]

/-- The sign-bit test of `add_cc`/`adc_cc` on bit 31. -/
theorem vbit_add (a b r : Nat) (ha : a < 2 ^ 32) (hb : b < 2 ^ 32) (hr : r < 2 ^ 32) :
    ((a ^^^ b ^^^ 0xFFFFFFFF) &&& (a ^^^ r)).testBit 31 = true ↔
      ((2147483648 ≤ a ↔ 2147483648 ≤ b) ∧ ¬ (2147483648 ≤ a ↔ 2147483648 ≤ r)) := by
  have h1 : Nat.testBit 0xFFFFFFFF 31 = true := by decide
  rw [Nat.testBit_and, Nat.testBit_xor, Nat.testBit_xor, Nat.testBit_xor, h1,
    ← testBit31 a ha, ← testBit31 b hb, ← testBit31 r hr]
  cases a.testBit 31 <;> cases b.testBit 31 <;> cases r.testBit 31 <;> simp

/-- The sign-bit test of `sub_cc`/`sbc_cc` on bit 31. -/
theorem vbit_sub (a b r : Nat) (ha : a < 2 ^ 32) (hb : b < 2 ^ 32) (hr : r < 2 ^ 32) :
    ((a ^^^ b) &&& (a ^^^ r)).testBit 31 = true ↔
      (¬ (2147483648 ≤ a ↔ 2147483648 ≤ b) ∧ ¬ (2147483648 ≤ a ↔ 2147483648 ≤ r)) := by
  rw [Nat.testBit_and, Nat.testBit_xor, Nat.testBit_xor,
    ← testBit31 a ha, ← testBit31 b hb, ← testBit31 r hr]
  cases a.testBit 31 <;> cases b.testBit 31 <;> cases r.testBit 31 <;> simp

/-- Claim C1. `add_cc(a,b)` returns `(a+b) mod 2^32`; afterwards C = 1 iff
`a+b >= 2^32` (equivalently `result < a`), V (bit 31 of `VF`) is set iff the
signed sum lies outside `[-2^31, 2^31-1]` (equivalently the operands share a
sign and the result's sign differs), N (bit 31 of `NF`) is bit 31 of the
result, and Z (`ZF == 0`) holds iff the result is 0. -/
theorem add_cc_flags (env : CPUARMState) (a b : Nat) (ha : a < 2 ^ 32) (hb : b < 2 ^ 32) :
    (add_cc env a b).1 = (a + b) % 2 ^ 32 ∧
    ((add_cc env a b).2.CF = if a + b ≥ 2 ^ 32 then 1 else 0) ∧
    (a + b ≥ 2 ^ 32 ↔ (add_cc env a b).1 < a) ∧
    ((add_cc env a b).2.VF.testBit 31 = true ↔
      (s32 a + s32 b < -2 ^ 31 ∨ s32 a + s32 b > 2 ^ 31 - 1)) ∧
    ((add_cc env a b).2.VF.testBit 31 = true ↔
      ((a.testBit 31 = b.testBit 31) ∧ (add_cc env a b).1.testBit 31 ≠ a.testBit 31)) ∧
    ((add_cc env a b).2.NF.testBit 31 = (add_cc env a b).1.testBit 31) ∧
    ((add_cc env a b).2.ZF = 0 ↔ (add_cc env a b).1 = 0) := by
  have hr : u32 ((a : Int) + b) = (a + b) % 2 ^ 32 := by unfold u32; omega
  have hlt : (a + b) % 2 ^ 32 < 2 ^ 32 := Nat.mod_lt _ (by norm_num)
  have h1 : (add_cc env a b).1 = (a + b) % 2 ^ 32 := by simp only [add_cc, WR_cpu_NF, WR_cpu_ZF, WR_cpu_CF, WR_cpu_VF,
        RR_cpu_CF, hr]
  have hV : (add_cc env a b).2.VF = (a ^^^ b ^^^ 0xFFFFFFFF) &&& (a ^^^ ((a + b) % 2 ^ 32)) := by
    simp only [add_cc, WR_cpu_NF, WR_cpu_ZF, WR_cpu_CF, WR_cpu_VF,
        RR_cpu_CF, hr]
  have hC : (add_cc env a b).2.CF = b2n (decide ((a + b) % 2 ^ 32 < a)) := by
    simp only [add_cc, WR_cpu_NF, WR_cpu_ZF, WR_cpu_CF, WR_cpu_VF,
        RR_cpu_CF, hr]
  have hN : (add_cc env a b).2.NF = (a + b) % 2 ^ 32 := by simp only [add_cc, WR_cpu_NF, WR_cpu_ZF, WR_cpu_CF, WR_cpu_VF,
        RR_cpu_CF, hr]
  have hZ : (add_cc env a b).2.ZF = (a + b) % 2 ^ 32 := by simp only [add_cc, WR_cpu_NF, WR_cpu_ZF, WR_cpu_CF, WR_cpu_VF,
        RR_cpu_CF, hr]
  rw [h1, hV, hC, hN, hZ]
  refine ⟨rfl, ?_, ?_, ?_, ?_, rfl, Iff.rfl⟩
  · simp only [b2n, decide_eq_true_eq]
    split <;> split <;> omega
  · omega
  · rw [vbit_add a b _ ha hb hlt, s32_of_lt a ha, s32_of_lt b hb]
    split <;> split <;> omega
  · rw [vbit_add a b _ ha hb hlt, ← testBit31 a ha, ← testBit31 b hb, ← testBit31 _ hlt]
    cases a.testBit 31 <;> cases b.testBit 31 <;> cases ((a + b) % 2 ^ 32).testBit 31 <;> simp

/-- Witness for `add_cc_flags` at the boundary operands `0xFFFFFFFF`, `0x80000000`. -/
theorem add_cc_flags_witness :
    0xFFFFFFFF < 2 ^ 32 ∧ 0x80000000 < 2 ^ 32 ∧
    (add_cc env0 0xFFFFFFFF 0x80000000).1 = (0xFFFFFFFF + 0x80000000) % 2 ^ 32 ∧
    ((add_cc env0 0xFFFFFFFF 0x80000000).2.CF = if 0xFFFFFFFF + 0x80000000 ≥ 2 ^ 32 then 1 else 0) :=
  ⟨by decide, by decide,
    (add_cc_flags env0 0xFFFFFFFF 0x80000000 (by decide) (by decide)).1,
    (add_cc_flags env0 0xFFFFFFFF 0x80000000 (by decide) (by decide)).2.1⟩

/-- Claim C2. `sub_cc(a,b)` returns `(a-b) mod 2^32`; afterwards C = 1 iff
`a >= b` unsigned (no borrow), V (bit 31 of `VF`) is set iff the signed
difference lies outside `[-2^31, 2^31-1]`, N is bit 31 of the result, and Z
holds iff the result is 0. -/
theorem sub_cc_flags (env : CPUARMState) (a b : Nat) (ha : a < 2 ^ 32) (hb : b < 2 ^ 32) :
    ((sub_cc env a b).1 : Int) = ((a : Int) - b) % 2 ^ 32 ∧
    ((sub_cc env a b).2.CF = if a ≥ b then 1 else 0) ∧
    ((sub_cc env a b).2.VF.testBit 31 = true ↔
      (s32 a - s32 b < -2 ^ 31 ∨ s32 a - s32 b > 2 ^ 31 - 1)) ∧
    ((sub_cc env a b).2.NF.testBit 31 = (sub_cc env a b).1.testBit 31) ∧
    ((sub_cc env a b).2.ZF = 0 ↔ (sub_cc env a b).1 = 0) := by
  have hlt : u32 ((a : Int) - b) < 2 ^ 32 := u32_lt _
  have hr : (u32 ((a : Int) - b) : Int) = ((a : Int) - b) % 2 ^ 32 := by unfold u32; omega
  have h1 : (sub_cc env a b).1 = u32 ((a : Int) - b) := rfl
  have hV : (sub_cc env a b).2.VF = (a ^^^ b) &&& (a ^^^ u32 ((a : Int) - b)) := rfl
  have hC : (sub_cc env a b).2.CF = b2n (decide (a ≥ b)) := rfl
  have hN : (sub_cc env a b).2.NF = u32 ((a : Int) - b) := rfl
  have hZ : (sub_cc env a b).2.ZF = u32 ((a : Int) - b) := rfl
  rw [h1, hV, hC, hN, hZ]
  refine ⟨hr, ?_, ?_, rfl, Iff.rfl⟩
  · simp only [b2n, decide_eq_true_eq]
  · rw [vbit_sub a b _ ha hb hlt, s32_of_lt a ha, s32_of_lt b hb]
    split <;> split <;> omega

/-- Witness for `sub_cc_flags` at the boundary operands `0`, `0x80000000`. -/
theorem sub_cc_flags_witness :
    0 < 2 ^ 32 ∧ 0x80000000 < 2 ^ 32 ∧
    ((sub_cc env0 0 0x80000000).1 : Int) = (((0 : Nat) : Int) - (0x80000000 : Nat)) % 2 ^ 32 ∧
    ((sub_cc env0 0 0x80000000).2.CF = if 0 ≥ 0x80000000 then 1 else 0) :=
  ⟨by decide, by decide,
    (sub_cc_flags env0 0 0x80000000 (by decide) (by decide)).1,
    (sub_cc_flags env0 0 0x80000000 (by decide) (by decide)).2.1⟩

/-- Claim C3. With prior carry `c` in {0,1}, `adc_cc(a,b)` returns
`(a+b+c) mod 2^32`; afterwards C = 1 iff `a+b+c >= 2^32`, V is set iff
`signed(a)+signed(b)+c` lies outside `[-2^31, 2^31-1]`, N is bit 31 of the
result and Z holds iff the result is 0.  With `c = 0` the call agrees with
`add_cc(a,b)`; with `c = 1` and `b = 0xFFFFFFFF` the result is `a` and C = 1. -/
theorem adc_cc_flags (env : CPUARMState) (a b c : Nat) (ha : a < 2 ^ 32) (hb : b < 2 ^ 32)
    (hc : c ≤ 1) (hCF : env.CF = c) :
    (adc_cc env a b).1 = (a + b + c) % 2 ^ 32 ∧
    ((adc_cc env a b).2.CF = if a + b + c ≥ 2 ^ 32 then 1 else 0) ∧
    ((adc_cc env a b).2.VF.testBit 31 = true ↔
      (s32 a + s32 b + c < -2 ^ 31 ∨ s32 a + s32 b + c > 2 ^ 31 - 1)) ∧
    ((adc_cc env a b).2.NF.testBit 31 = (adc_cc env a b).1.testBit 31) ∧
    ((adc_cc env a b).2.ZF = 0 ↔ (adc_cc env a b).1 = 0) ∧
    (c = 0 → adc_cc env a b = add_cc env a b) ∧
    (c = 1 → b = 0xFFFFFFFF → (adc_cc env a b).1 = a ∧ (adc_cc env a b).2.CF = 1) := by
  have hlt : (a + b + c) % 2 ^ 32 < 2 ^ 32 := Nat.mod_lt _ (by norm_num)
  have hc01 : c = 0 ∨ c = 1 := by omega
  have h1 : (adc_cc env a b).1 = (a + b + c) % 2 ^ 32 := by
    rcases hc01 with h | h
    · subst h
      simp only [adc_cc, WR_cpu_NF, WR_cpu_ZF, WR_cpu_CF, WR_cpu_VF,
        RR_cpu_CF, hCF, if_true]
      unfold u32; omega
    · subst h
      have : ¬ env.CF = 0 := by omega
      simp only [adc_cc, WR_cpu_NF, WR_cpu_ZF, WR_cpu_CF, WR_cpu_VF,
        RR_cpu_CF, this, if_false]
      unfold u32; omega
  have hC : (adc_cc env a b).2.CF = if a + b + c ≥ 2 ^ 32 then 1 else 0 := by
    rcases hc01 with h | h
    · subst h
      have hr : u32 ((a : Int) + b) = (a + b) % 2 ^ 32 := by unfold u32; omega
      simp only [adc_cc, WR_cpu_NF, WR_cpu_ZF, WR_cpu_CF, WR_cpu_VF,
        RR_cpu_CF, hCF, if_true, hr, b2n, decide_eq_true_eq]
      split <;> split <;> omega
    · subst h
      have : ¬ env.CF = 0 := by omega
      have hr : u32 ((a : Int) + b + 1) = (a + b + 1) % 2 ^ 32 := by unfold u32; omega
      simp only [adc_cc, WR_cpu_NF, WR_cpu_ZF, WR_cpu_CF, WR_cpu_VF,
        RR_cpu_CF, this, if_false, hr, b2n, decide_eq_true_eq]
      split <;> split <;> omega
  have hV : (adc_cc env a b).2.VF = (a ^^^ b ^^^ 0xFFFFFFFF) &&& (a ^^^ (adc_cc env a b).1) := by
    unfold adc_cc; split; rfl
  have hN : (adc_cc env a b).2.NF = (adc_cc env a b).1 := by
    unfold adc_cc; split; rfl
  have hZ : (adc_cc env a b).2.ZF = (adc_cc env a b).1 := by
    unfold adc_cc; split; rfl
  refine ⟨h1, hC, ?_, by rw [hN], by rw [hZ], ?_, ?_⟩
  · rw [hV, h1, vbit_add a b _ ha hb hlt, s32_of_lt a ha, s32_of_lt b hb]
    split <;> split <;> omega
  · intro h
    subst h
    simp only [adc_cc, WR_cpu_NF, WR_cpu_ZF, WR_cpu_CF, WR_cpu_VF,
        RR_cpu_CF, add_cc, hCF, if_true]
  · intro h hb1
    rw [h1, hC]
    subst h; subst hb1
    constructor
    · omega
    · split <;> omega

/-- Witness for `adc_cc_flags`: carry-in 1 and `b = 0xFFFFFFFF`. -/
theorem adc_cc_flags_witness :
    (adc_cc { env0 with CF := 1 } 5 0xFFFFFFFF).1 = 5 ∧
    (adc_cc { env0 with CF := 1 } 5 0xFFFFFFFF).2.CF = 1 :=
  (adc_cc_flags { env0 with CF := 1 } 5 0xFFFFFFFF 1 (by decide) (by decide) (by decide) rfl).2.2.2.2.2.2
    rfl rfl

/-- Claim C4. With prior carry `c` in {0,1}, `sbc_cc(a,b)` returns
`(a-b-(1-c)) mod 2^32`; afterwards C = 1 iff no borrow occurred (`a > b` when
`c = 0`, `a >= b` when `c = 1`), V is set iff `signed(a)-signed(b)-(1-c)` lies
outside `[-2^31, 2^31-1]`, N is bit 31 of the result and Z holds iff the
result is 0. -/
theorem sbc_cc_flags (env : CPUARMState) (a b c : Nat) (ha : a < 2 ^ 32) (hb : b < 2 ^ 32)
    (hc : c ≤ 1) (hCF : env.CF = c) :
    ((sbc_cc env a b).1 : Int) = ((a : Int) - b - (1 - c)) % 2 ^ 32 ∧
    ((sbc_cc env a b).2.CF = if (0 : Int) ≤ (a : Int) - b - (1 - c) then 1 else 0) ∧
    (c = 0 → (sbc_cc env a b).2.CF = if a > b then 1 else 0) ∧
    (c = 1 → (sbc_cc env a b).2.CF = if a ≥ b then 1 else 0) ∧
    ((sbc_cc env a b).2.VF.testBit 31 = true ↔
      (s32 a - s32 b - (1 - c) < -2 ^ 31 ∨ s32 a - s32 b - (1 - c) > 2 ^ 31 - 1)) ∧
    ((sbc_cc env a b).2.NF.testBit 31 = (sbc_cc env a b).1.testBit 31) ∧
    ((sbc_cc env a b).2.ZF = 0 ↔ (sbc_cc env a b).1 = 0) := by
  have hc01 : c = 0 ∨ c = 1 := by omega
  have h1 : (sbc_cc env a b).1 = u32 ((a : Int) - b - (1 - c)) := by
    rcases hc01 with h | h
    · subst h
      simp only [sbc_cc, WR_cpu_NF, WR_cpu_ZF, WR_cpu_CF, WR_cpu_VF,
        RR_cpu_CF, hCF, if_true]
      rfl
    · subst h
      have : ¬ env.CF = 0 := by omega
      simp only [sbc_cc, WR_cpu_NF, WR_cpu_ZF, WR_cpu_CF, WR_cpu_VF,
        RR_cpu_CF, this, if_false]
      unfold u32; omega
  have hlt : u32 ((a : Int) - b - (1 - c)) < 2 ^ 32 := u32_lt _
  have hr : (u32 ((a : Int) - b - (1 - c)) : Int) = ((a : Int) - b - (1 - c)) % 2 ^ 32 := by
    unfold u32; omega
  have hC0 : c = 0 → (sbc_cc env a b).2.CF = if a > b then 1 else 0 := by
    intro h; subst h
    simp only [sbc_cc, WR_cpu_NF, WR_cpu_ZF, WR_cpu_CF, WR_cpu_VF,
        RR_cpu_CF, hCF, if_true, b2n, decide_eq_true_eq]
  have hC1 : c = 1 → (sbc_cc env a b).2.CF = if a ≥ b then 1 else 0 := by
    intro h; subst h
    have : ¬ env.CF = 0 := by omega
    simp only [sbc_cc, WR_cpu_NF, WR_cpu_ZF, WR_cpu_CF, WR_cpu_VF,
        RR_cpu_CF, this, if_false, b2n, decide_eq_true_eq]
  have hV : (sbc_cc env a b).2.VF = (a ^^^ b) &&& (a ^^^ (sbc_cc env a b).1) := by
    unfold sbc_cc; split; rfl
  have hN : (sbc_cc env a b).2.NF = (sbc_cc env a b).1 := by
    unfold sbc_cc; split; rfl
  have hZ : (sbc_cc env a b).2.ZF = (sbc_cc env a b).1 := by
    unfold sbc_cc; split; rfl
  refine ⟨by rw [h1, hr], ?_, hC0, hC1, ?_, by rw [hN], by rw [hZ]⟩
  · rcases hc01 with h | h
    · rw [hC0 h]; subst h
      split <;> split <;> omega
    · rw [hC1 h]; subst h
      split <;> split <;> omega
  · rw [hV, h1, vbit_sub a b _ ha hb hlt, s32_of_lt a ha, s32_of_lt b hb]
    split <;> split <;> omega

/-- Witness for `sbc_cc_flags`: carry-in 0 (borrow) with equal operands. -/
theorem sbc_cc_flags_witness :
    ((sbc_cc env0 7 7).1 : Int) = (((7 : Nat) : Int) - (7 : Nat) - (1 - (0 : Nat))) % 2 ^ 32 ∧
    ((sbc_cc env0 7 7).2.CF = if (0 : Int) ≤ ((7 : Nat) : Int) - (7 : Nat) - (1 - (0 : Nat)) then 1 else 0) :=
  ⟨(sbc_cc_flags env0 7 7 0 (by decide) (by decide) (by decide) rfl).1,
   (sbc_cc_flags env0 7 7 0 (by decide) (by decide) (by decide) rfl).2.1⟩

/-! ## Barrel shifter -/

theorem and_ff (i : Nat) : i &&& 0xff = i % 256 := Nat.and_pow_two_sub_one_eq_mod i 8

theorem and_1f (i : Nat) : i &&& 0x1f = i % 32 := Nat.and_pow_two_sub_one_eq_mod i 5

/-- The expression `(x >> k) & 1` is bit `k` of `x`. -/
theorem shr_and_one (x k : Nat) : (x >>> k) &&& 1 = (x.testBit k).toNat := by
  rw [Nat.and_one_is_mod, Nat.shiftRight_eq_div_pow, Nat.toNat_testBit]

theorem and_one_bit0 (x : Nat) : x &&& 1 = (x.testBit 0).toNat := by
  rw [Nat.and_one_is_mod, Nat.toNat_testBit]; simp

/-- Claim C5. With `n = i mod 256`, `shl_cc(x,i)` returns `(x * 2^n) mod 2^32`
and `shr_cc(x,i)` returns `floor(x / 2^n)` (both 0 when `n >= 32`).  The carry
flag is unchanged when `n = 0` (as is the value), is the last bit shifted out
when `1 <= n <= 32` (bit `32-n` for the left shift, bit `n-1` for the right
shift), and is 0 when `n > 32`.  N, Z, V and Q are never changed. -/
theorem shl_shr_cc_spec (env : CPUARMState) (x i n : Nat) (hx : x < 2 ^ 32) (hn : n = i % 256) :
    (shl_cc env x i).1 = (x * 2 ^ n) % 2 ^ 32 ∧
    (shr_cc env x i).1 = x / 2 ^ n ∧
    (n ≥ 32 → (shl_cc env x i).1 = 0 ∧ (shr_cc env x i).1 = 0) ∧
    (n = 0 → shl_cc env x i = (x, env) ∧ shr_cc env x i = (x, env)) ∧
    (1 ≤ n → n ≤ 32 → (shl_cc env x i).2.CF = (x.testBit (32 - n)).toNat ∧
      (shr_cc env x i).2.CF = (x.testBit (n - 1)).toNat) ∧
    (n > 32 → (shl_cc env x i).2.CF = 0 ∧ (shr_cc env x i).2.CF = 0) ∧
    ((shl_cc env x i).2.NF = env.NF ∧ (shl_cc env x i).2.ZF = env.ZF ∧
      (shl_cc env x i).2.VF = env.VF ∧ (shl_cc env x i).2.QF = env.QF) ∧
    ((shr_cc env x i).2.NF = env.NF ∧ (shr_cc env x i).2.ZF = env.ZF ∧
      (shr_cc env x i).2.VF = env.VF ∧ (shr_cc env x i).2.QF = env.QF) := by
  have hff : i &&& 0xff = n := by rw [and_ff, hn]
  have hpow : n ≥ 32 → 2 ^ 32 ≤ 2 ^ n := fun h => Nat.pow_le_pow_right (by norm_num) h
  have hl0 : n ≥ 32 → (x * 2 ^ n) % 2 ^ 32 = 0 := fun h =>
    Nat.mod_eq_zero_of_dvd (Dvd.dvd.mul_left (Nat.pow_dvd_pow 2 h) x)
  have hr0 : n ≥ 32 → x / 2 ^ n = 0 := fun h =>
    Nat.div_eq_of_lt (Nat.lt_of_lt_of_le hx (hpow h))
  by_cases h32 : n ≥ 32
  · by_cases he : n = 32
    · have hL : shl_cc env x i = (0, { env with CF := x &&& 1 }) := by
        simp only [shl_cc, WR_cpu_NF, WR_cpu_ZF, WR_cpu_CF, WR_cpu_VF,
        RR_cpu_CF, hff, he]; rfl
      have hR : shr_cc env x i = (0, { env with CF := (x >>> 31) &&& 1 }) := by
        simp only [shr_cc, WR_cpu_NF, WR_cpu_ZF, WR_cpu_CF, WR_cpu_VF,
        RR_cpu_CF, hff, he]; rfl
      rw [hL, hR]
      refine ⟨(hl0 h32).symm, (hr0 h32).symm, fun _ => ⟨rfl, rfl⟩, fun h => by omega,
        fun _ _ => ?_, fun h => by omega, ⟨rfl, rfl, rfl, rfl⟩, ⟨rfl, rfl, rfl, rfl⟩⟩
      subst he
      exact ⟨and_one_bit0 x, shr_and_one x 31⟩
    · have hL : shl_cc env x i = (0, { env with CF := 0 }) := by
        simp only [shl_cc, WR_cpu_NF, WR_cpu_ZF, WR_cpu_CF, WR_cpu_VF,
        RR_cpu_CF, hff, h32, he, if_true, if_false]
      have hR : shr_cc env x i = (0, { env with CF := 0 }) := by
        simp only [shr_cc, WR_cpu_NF, WR_cpu_ZF, WR_cpu_CF, WR_cpu_VF,
        RR_cpu_CF, hff, h32, he, if_true, if_false]
      rw [hL, hR]
      exact ⟨(hl0 h32).symm, (hr0 h32).symm, fun _ => ⟨rfl, rfl⟩, fun h => by omega,
        fun _ h => by omega, fun _ => ⟨rfl, rfl⟩, ⟨rfl, rfl, rfl, rfl⟩, ⟨rfl, rfl, rfl, rfl⟩⟩
  · by_cases h0 : n = 0
    · have hL : shl_cc env x i = (x, env) := by
        simp only [shl_cc, WR_cpu_NF, WR_cpu_ZF, WR_cpu_CF, WR_cpu_VF,
        RR_cpu_CF, hff, h0]; rfl
      have hR : shr_cc env x i = (x, env) := by
        simp only [shr_cc, WR_cpu_NF, WR_cpu_ZF, WR_cpu_CF, WR_cpu_VF,
        RR_cpu_CF, hff, h0]; rfl
      rw [hL, hR]
      subst h0
      refine ⟨?_, ?_, fun h => by omega, fun _ => ⟨rfl, rfl⟩,
        fun h => by omega, fun h => by omega, ⟨rfl, rfl, rfl, rfl⟩, ⟨rfl, rfl, rfl, rfl⟩⟩
      · simp only [pow_zero, mul_one]; omega
      · simp
    · have hL : shl_cc env x i =
          ((x <<< n) % 2 ^ 32, { env with CF := (x >>> (32 - n)) &&& 1 }) := by
        simp only [shl_cc, WR_cpu_NF, WR_cpu_ZF, WR_cpu_CF, WR_cpu_VF,
        RR_cpu_CF, hff, h32, if_false, ne_eq, h0, not_false_eq_true, if_true]
      have hR : shr_cc env x i = (x >>> n, { env with CF := (x >>> (n - 1)) &&& 1 }) := by
        simp only [shr_cc, WR_cpu_NF, WR_cpu_ZF, WR_cpu_CF, WR_cpu_VF,
        RR_cpu_CF, hff, h32, if_false, ne_eq, h0, not_false_eq_true, if_true]
      rw [hL, hR]
      refine ⟨by rw [Nat.shiftLeft_eq], by rw [Nat.shiftRight_eq_div_pow],
        fun h => absurd h h32, fun h => absurd h h0,
        fun _ _ => ⟨shr_and_one x (32 - n), shr_and_one x (n - 1)⟩, fun h => by omega,
        ⟨rfl, rfl, rfl, rfl⟩, ⟨rfl, rfl, rfl, rfl⟩⟩

/-- Witness for `shl_shr_cc_spec`: shift by 32 encoded as `i = 0x120`. -/
theorem shl_shr_cc_spec_witness :
    (shl_cc env0 0x80000001 0x120).1 = (0x80000001 * 2 ^ 32) % 2 ^ 32 ∧
    (shr_cc env0 0x80000001 0x120).1 = 0x80000001 / 2 ^ 32 :=
  ⟨(shl_shr_cc_spec env0 0x80000001 0x120 32 (by decide) (by decide)).1,
   (shl_shr_cc_spec env0 0x80000001 0x120 32 (by decide) (by decide)).2.1⟩

theorem s32_bounds (x : Nat) : -2 ^ 31 ≤ s32 x ∧ s32 x < 2 ^ 31 := by
  unfold s32; split <;> omega

theorem s32_u32 (q : Int) (h1 : -2 ^ 31 ≤ q) (h2 : q < 2 ^ 31) : s32 (u32 q) = q := by
  unfold s32 u32; split <;> omega

/-- Floor division is characterised by its two bounds. -/
theorem ediv_eq_of_bounds (v p q : Int) (hp : 0 < p) (h1 : q * p ≤ v) (h2 : v < (q + 1) * p) :
    v / p = q := by
  have h := (Int.ediv_emod_unique (a := v) (r := v - p * q) (q := q) hp).2
    ⟨by ring, by nlinarith, by nlinarith⟩
  exact h.1

theorem ediv_pow_bounds (v : Int) (n : Nat) (h1 : -2 ^ 31 ≤ v) (h2 : v < 2 ^ 31) :
    -2 ^ 31 ≤ v / 2 ^ n ∧ v / 2 ^ n < 2 ^ 31 := by
  have hp : (0 : Int) < 2 ^ n := by positivity
  have hp1 : (1 : Int) ≤ 2 ^ n := by omega
  have ha := Int.ediv_mul_le v (ne_of_gt hp)
  have hb := Int.lt_ediv_add_one_mul_self v hp
  constructor
  · by_contra hcon
    have : v / 2 ^ n + 1 ≤ -2 ^ 31 := by omega
    nlinarith
  · by_contra hcon
    have : (2 : Int) ^ 31 ≤ v / 2 ^ n := by omega
    nlinarith

theorem int_shr (v : Int) (n : Nat) : v >>> n = v / 2 ^ n := by
  rw [Int.shiftRight_eq_div_pow]; push_cast; rfl

/-- Claim C6. With `n = i mod 256`, `sar_cc(x,i)` returns
`floor(signed(x) / 2^n)` as a 32-bit two's-complement word; for `n >= 32` this
is the sign bit of `x` replicated into all 32 bits.  The carry flag is
unchanged when `n = 0` (as is the value), is bit `n-1` of `x` when
`1 <= n <= 31`, and is bit 31 of `x` when `n >= 32`. -/
theorem sar_cc_spec (env : CPUARMState) (x i n : Nat) (hx : x < 2 ^ 32) (hn : n = i % 256) :
    (sar_cc env x i).1 < 2 ^ 32 ∧
    s32 (sar_cc env x i).1 = s32 x / 2 ^ n ∧
    (s32 (sar_cc env x i).1 * 2 ^ n ≤ s32 x ∧ s32 x < (s32 (sar_cc env x i).1 + 1) * 2 ^ n) ∧
    (n ≥ 32 → (sar_cc env x i).1 = if x.testBit 31 then 0xFFFFFFFF else 0) ∧
    (n = 0 → sar_cc env x i = (x, env)) ∧
    (1 ≤ n → n ≤ 31 → (sar_cc env x i).2.CF = (x.testBit (n - 1)).toNat) ∧
    (n ≥ 32 → (sar_cc env x i).2.CF = (x.testBit 31).toNat) := by
  have hff : i &&& 0xff = n := by rw [and_ff, hn]
  have hv := s32_bounds x
  have hp : (0 : Int) < 2 ^ n := by positivity
  have hfloor : ∀ r : Nat, s32 r = s32 x / 2 ^ n →
      s32 r * 2 ^ n ≤ s32 x ∧ s32 x < (s32 r + 1) * 2 ^ n := by
    intro r hr
    rw [hr]
    exact ⟨Int.ediv_mul_le _ (ne_of_gt hp), Int.lt_ediv_add_one_mul_self _ hp⟩
  by_cases h32 : n ≥ 32
  · have hS : sar_cc env x i = (u32 (s32 x >>> (31 : Nat)), { env with CF := (x >>> 31) &&& 1 }) := by
      simp only [sar_cc, WR_cpu_NF, WR_cpu_ZF, WR_cpu_CF, WR_cpu_VF,
        RR_cpu_CF, hff, h32, if_true]
    have hpow : (2 : Int) ^ 32 ≤ 2 ^ n := by
      exact_mod_cast Nat.pow_le_pow_right (by norm_num : 0 < 2) h32
    have hval : u32 (s32 x >>> (31 : Nat)) = if x.testBit 31 then 0xFFFFFFFF else 0 := by
      rw [int_shr, s32_of_lt x hx]
      by_cases hb : x.testBit 31 = true
      · have := (testBit31 x hx).1 hb
        rw [if_pos hb]; unfold u32; split <;> omega
      · have := mt (testBit31 x hx).2 hb
        rw [if_neg hb]; unfold u32; split <;> omega
    have hs : s32 (u32 (s32 x >>> (31 : Nat))) = s32 x / 2 ^ n := by
      rw [hval, s32_of_lt x hx]
      by_cases hb : x.testBit 31 = true
      · have := (testBit31 x hx).1 hb
        rw [if_pos hb]
        have h2 : ¬ x < 2 ^ 31 := by omega
        rw [if_neg h2]
        symm
        apply ediv_eq_of_bounds _ _ _ hp
        · have : s32 4294967295 = -1 := by decide
          rw [this]; omega
        · have : s32 4294967295 = -1 := by decide
          rw [this]; omega
      · have := mt (testBit31 x hx).2 hb
        rw [if_neg hb]
        have h2 : x < 2 ^ 31 := by omega
        rw [if_pos h2]
        symm
        apply ediv_eq_of_bounds _ _ _ hp
        · have : s32 0 = 0 := by decide
          rw [this]; omega
        · have : s32 0 = 0 := by decide
          rw [this]; omega
    rw [hS]
    exact ⟨u32_lt _, hs, hfloor _ hs, fun _ => hval, fun h => by omega, fun _ h => by omega,
      fun _ => shr_and_one x 31⟩
  · by_cases h0 : n = 0
    · have hS : sar_cc env x i = (x, env) := by
        simp only [sar_cc, WR_cpu_NF, WR_cpu_ZF, WR_cpu_CF, WR_cpu_VF,
        RR_cpu_CF, hff, h0]; rfl
      have hs : s32 x = s32 x / 2 ^ n := by rw [h0]; simp
      rw [hS]
      exact ⟨hx, hs, hfloor _ hs, fun h => absurd h h32, fun _ => rfl, fun h => by omega,
        fun h => absurd h h32⟩
    · have hS : sar_cc env x i =
          (u32 (s32 x >>> n), { env with CF := (x >>> (n - 1)) &&& 1 }) := by
        simp only [sar_cc, WR_cpu_NF, WR_cpu_ZF, WR_cpu_CF, WR_cpu_VF,
        RR_cpu_CF, hff, h32, if_false, ne_eq, h0, not_false_eq_true, if_true]
      have hb := ediv_pow_bounds (s32 x) n hv.1 hv.2
      have hs : s32 (u32 (s32 x >>> n)) = s32 x / 2 ^ n := by
        rw [int_shr]; exact s32_u32 _ hb.1 hb.2
      rw [hS]
      exact ⟨u32_lt _, hs, hfloor _ hs, fun h => absurd h h32, fun h => absurd h h0,
        fun _ _ => shr_and_one x (n - 1), fun h => absurd h h32⟩

/-- Witness for `sar_cc_spec`: a negative word shifted by 40. -/
theorem sar_cc_spec_witness :
    (sar_cc env0 0x80000000 40).1 = (if Nat.testBit 0x80000000 31 then 0xFFFFFFFF else 0) ∧
    (sar_cc env0 0x80000000 40).2.CF = (Nat.testBit 0x80000000 31).toNat :=
  ⟨(sar_cc_spec env0 0x80000000 40 40 (by decide) (by decide)).2.2.2.1 (by decide),
   (sar_cc_spec env0 0x80000000 40 40 (by decide) (by decide)).2.2.2.2.2.2 (by decide)⟩

/-- Claim C7. With `n = i mod 256`, `ror_cc(x,i)` returns `x` rotated right by
`n mod 32` positions.  If `n = 0` the carry flag is unchanged; if `n != 0` and
`n mod 32 = 0` the value is `x` and the carry flag is bit 31 of `x`; if
`n mod 32 = s != 0` the carry flag is bit `s-1` of `x`.  Whenever `n != 0` the
carry flag equals bit 31 of the returned value. -/
theorem ror_cc_spec (env : CPUARMState) (x i n : Nat) (hx : x < 2 ^ 32) (hn : n = i % 256) :
    (ror_cc env x i).1 < 2 ^ 32 ∧
    (∀ k, k < 32 → (ror_cc env x i).1.testBit k = x.testBit ((k + n % 32) % 32)) ∧
    (n = 0 → ror_cc env x i = (x, env)) ∧
    (n ≠ 0 → n % 32 = 0 →
      (ror_cc env x i).1 = x ∧ (ror_cc env x i).2.CF = (x.testBit 31).toNat) ∧
    (n % 32 ≠ 0 → (ror_cc env x i).2.CF = (x.testBit (n % 32 - 1)).toNat) ∧
    (n ≠ 0 → (ror_cc env x i).2.CF = ((ror_cc env x i).1.testBit 31).toNat) := by
  have hff : i &&& 0xff = n := by rw [and_ff, hn]
  have h1f : n &&& 0x1f = n % 32 := and_1f n
  have hrot0 : n % 32 = 0 → ∀ k, k < 32 → x.testBit k = x.testBit ((k + n % 32) % 32) := by
    intro h k hk
    rw [h, Nat.add_zero, Nat.mod_eq_of_lt hk]
  by_cases hs : n % 32 = 0
  · by_cases h0 : n = 0
    · have hR : ror_cc env x i = (x, env) := by
        simp only [ror_cc, WR_cpu_NF, WR_cpu_ZF, WR_cpu_CF, WR_cpu_VF,
        RR_cpu_CF, hff, h0]; rfl
      rw [hR]
      exact ⟨hx, hrot0 hs, fun _ => rfl, fun h => absurd h0 h, fun h => absurd hs h,
        fun h => absurd h0 h⟩
    · have hR : ror_cc env x i = (x, { env with CF := (x >>> 31) &&& 1 }) := by
        simp only [ror_cc, WR_cpu_NF, WR_cpu_ZF, WR_cpu_CF, WR_cpu_VF,
        RR_cpu_CF, hff, h1f, hs, if_true, ne_eq, h0, not_false_eq_true]
      rw [hR]
      exact ⟨hx, hrot0 hs, fun h => absurd h h0, fun _ _ => ⟨rfl, shr_and_one x 31⟩,
        fun h => absurd hs h, fun _ => shr_and_one x 31⟩
  · have h0 : n ≠ 0 := by
      intro h; rw [h] at hs; exact hs rfl
    have hslt : n % 32 < 32 := Nat.mod_lt _ (by norm_num)
    have hR : ror_cc env x i =
        ((x >>> (n % 32)) ||| ((x <<< (32 - n % 32)) % 2 ^ 32),
          { env with CF := (x >>> (n % 32 - 1)) &&& 1 }) := by
      simp only [ror_cc, WR_cpu_NF, WR_cpu_ZF, WR_cpu_CF, WR_cpu_VF,
        RR_cpu_CF, hff, h1f, hs, if_false]
    have hbits : ∀ k, k < 32 →
        ((x >>> (n % 32)) ||| ((x <<< (32 - n % 32)) % 2 ^ 32)).testBit k
          = x.testBit ((k + n % 32) % 32) := by
      intro k hk
      rw [Nat.testBit_or, Nat.testBit_shiftRight, Nat.testBit_mod_two_pow, Nat.testBit_shiftLeft]
      by_cases hw : k + n % 32 < 32
      · have h1 : ¬ k ≥ 32 - n % 32 := by omega
        rw [Nat.mod_eq_of_lt hw, Nat.add_comm]
        simp [h1]
      · have h1 : k ≥ 32 - n % 32 := by omega
        have h2 : x.testBit (n % 32 + k) = false := by
          apply Nat.testBit_lt_two_pow
          exact Nat.lt_of_lt_of_le hx (Nat.pow_le_pow_right (by norm_num) (by omega))
        have h3 : (k + n % 32) % 32 = k - (32 - n % 32) := by omega
        rw [h2, h3]
        simp [h1, hk]
    have hlt : (x >>> (n % 32)) ||| ((x <<< (32 - n % 32)) % 2 ^ 32) < 2 ^ 32 := by
      apply Nat.or_lt_two_pow
      · rw [Nat.shiftRight_eq_div_pow]
        exact Nat.lt_of_le_of_lt (Nat.div_le_self _ _) hx
      · exact Nat.mod_lt _ (by norm_num)
    have hC : (x >>> (n % 32 - 1)) &&& 1 = (x.testBit (n % 32 - 1)).toNat := shr_and_one _ _
    rw [hR]
    refine ⟨hlt, hbits, fun h => absurd h h0, fun _ h => absurd h hs, fun _ => hC, fun _ => ?_⟩
    show (x >>> (n % 32 - 1)) &&& 1 = _
    rw [hC, hbits 31 (by norm_num)]
    have h3 : (31 + n % 32) % 32 = n % 32 - 1 := by omega
    rw [h3]

/-- Witness for `ror_cc_spec`: rotate by 32 leaves the value and sets carry
from bit 31. -/
theorem ror_cc_spec_witness :
    (ror_cc env0 0x80000001 32).1 = 0x80000001 ∧
    (ror_cc env0 0x80000001 32).2.CF = (Nat.testBit 0x80000001 31).toNat :=
  (ror_cc_spec env0 0x80000001 32 32 (by decide) (by decide)).2.2.2.1 (by decide) (by decide)

/-! ## Saturation -/

theorem testBit63 (x : Nat) (hx : x < 2 ^ 64) : x.testBit 63 = true ↔ 9223372036854775808 ≤ x := by
  rw [Nat.testBit_to_div_mod]
  simp only [decide_eq_true_eq]
  omega

theorem u64_lt (z : Int) : u64 z < 2 ^ 64 := by
  unfold u64; omega

theorem s64_of_lt (x : Nat) (hx : x < 2 ^ 64) :
    s64 x = if x < 2 ^ 63 then (x : Int) else (x : Int) - 2 ^ 64 := by
  unfold s64; rw [Nat.mod_eq_of_lt hx]

/-- The test `y & SIGNBIT` is non-zero exactly when bit 31 of `y` is set. -/
theorem and_signbit (y : Nat) : (y &&& SIGNBIT) ≠ 0 ↔ y.testBit 31 = true := by
  have h : y &&& SIGNBIT = (y.testBit 31).toNat * 2 ^ 31 := Nat.and_two_pow y 31
  rw [h]
  cases y.testBit 31 <;> simp

/-- The test `y & SIGNBIT64` is non-zero exactly when bit 63 of `y` is set. -/
theorem and_signbit64 (y : Nat) : (y &&& SIGNBIT64) ≠ 0 ↔ y.testBit 63 = true := by
  have h : y &&& SIGNBIT64 = (y.testBit 63).toNat * 2 ^ 63 := Nat.and_two_pow y 63
  rw [h]
  cases y.testBit 63 <;> simp

/-- The overflow test of `add_saturate` in terms of the operands' signs. -/
theorem sat_add_cond (a b r : Nat) (ha : a < 2 ^ 32) (hb : b < 2 ^ 32) (hr : r < 2 ^ 32) :
    (((r ^^^ a) &&& SIGNBIT) ≠ 0 ∧ ((a ^^^ b) &&& SIGNBIT) = 0) ↔
      ((2147483648 ≤ a ↔ 2147483648 ≤ b) ∧ ¬ (2147483648 ≤ a ↔ 2147483648 ≤ r)) := by
  rw [← not_not (a := (a ^^^ b) &&& SIGNBIT = 0), ← ne_eq, and_signbit, and_signbit,
    Nat.testBit_xor, Nat.testBit_xor, ← testBit31 a ha, ← testBit31 b hb, ← testBit31 r hr]
  cases a.testBit 31 <;> cases b.testBit 31 <;> cases r.testBit 31 <;> simp

/-- The overflow test of `sub_saturate` in terms of the operands' signs. -/
theorem sat_sub_cond (a b r : Nat) (ha : a < 2 ^ 32) (hb : b < 2 ^ 32) (hr : r < 2 ^ 32) :
    (((r ^^^ a) &&& SIGNBIT) ≠ 0 ∧ ((a ^^^ b) &&& SIGNBIT) ≠ 0) ↔
      (¬ (2147483648 ≤ a ↔ 2147483648 ≤ b) ∧ ¬ (2147483648 ≤ a ↔ 2147483648 ≤ r)) := by
  rw [and_signbit, and_signbit,
    Nat.testBit_xor, Nat.testBit_xor, ← testBit31 a ha, ← testBit31 b hb, ← testBit31 r hr]
  cases a.testBit 31 <;> cases b.testBit 31 <;> cases r.testBit 31 <;> simp

/-- The 64-bit overflow test of `neon_add_saturate_s64`. -/
theorem sat_add_cond64 (a b r : Nat) (ha : a < 2 ^ 64) (hb : b < 2 ^ 64) (hr : r < 2 ^ 64) :
    (((r ^^^ a) &&& SIGNBIT64) ≠ 0 ∧ ((a ^^^ b) &&& SIGNBIT64) = 0) ↔
      ((9223372036854775808 ≤ a ↔ 9223372036854775808 ≤ b) ∧
        ¬ (9223372036854775808 ≤ a ↔ 9223372036854775808 ≤ r)) := by
  rw [← not_not (a := (a ^^^ b) &&& SIGNBIT64 = 0), ← ne_eq, and_signbit64, and_signbit64,
    Nat.testBit_xor, Nat.testBit_xor, ← testBit63 a ha, ← testBit63 b hb, ← testBit63 r hr]
  cases a.testBit 63 <;> cases b.testBit 63 <;> cases r.testBit 63 <;> simp

/-- The 64-bit overflow test of `neon_sub_saturate_s64`. -/
theorem sat_sub_cond64 (a b r : Nat) (ha : a < 2 ^ 64) (hb : b < 2 ^ 64) (hr : r < 2 ^ 64) :
    (((r ^^^ a) &&& SIGNBIT64) ≠ 0 ∧ ((a ^^^ b) &&& SIGNBIT64) ≠ 0) ↔
      (¬ (9223372036854775808 ≤ a ↔ 9223372036854775808 ≤ b) ∧
        ¬ (9223372036854775808 ≤ a ↔ 9223372036854775808 ≤ r)) := by
  rw [and_signbit64, and_signbit64,
    Nat.testBit_xor, Nat.testBit_xor, ← testBit63 a ha, ← testBit63 b hb, ← testBit63 r hr]
  cases a.testBit 63 <;> cases b.testBit 63 <;> cases r.testBit 63 <;> simp

/-- The clamp value `~(((int32_t)a >> 31) ^ SIGNBIT)`. -/
theorem clamp32 (a : Nat) (ha : a < 2 ^ 32) :
    not32 (u32 (s32 a >>> (31 : Nat)) ^^^ SIGNBIT) = if a < 2 ^ 31 then 0x7FFFFFFF else 0x80000000 := by
  rw [int_shr, s32_of_lt a ha]
  by_cases h : a < 2 ^ 31
  · have h1 : u32 ((if a < 2 ^ 31 then (a : Int) else (a : Int) - 2 ^ 32) / 2 ^ 31) = 0 := by
      rw [if_pos h]; unfold u32; omega
    rw [h1, if_pos h]; decide
  · have h1 : u32 ((if a < 2 ^ 31 then (a : Int) else (a : Int) - 2 ^ 32) / 2 ^ 31) = 0xFFFFFFFF := by
      rw [if_neg h]; unfold u32; omega
    rw [h1, if_neg h]; decide

/-- The clamp value `((int64_t)src1 >> 63) ^ ~SIGNBIT64`. -/
theorem clamp64 (a : Nat) (ha : a < 2 ^ 64) :
    u64 (s64 a >>> (63 : Nat)) ^^^ not64 SIGNBIT64 =
      if a < 2 ^ 63 then 0x7FFFFFFFFFFFFFFF else 0x8000000000000000 := by
  rw [int_shr, s64_of_lt a ha]
  by_cases h : a < 2 ^ 63
  · have h1 : u64 ((if a < 2 ^ 63 then (a : Int) else (a : Int) - 2 ^ 64) / 2 ^ 63) = 0 := by
      rw [if_pos h]; unfold u64; omega
    rw [h1, if_pos h]; decide
  · have h1 : u64 ((if a < 2 ^ 63 then (a : Int) else (a : Int) - 2 ^ 64) / 2 ^ 63)
        = 0xFFFFFFFFFFFFFFFF := by
      rw [if_neg h]; unfold u64; omega
    rw [h1, if_neg h]; decide

theorem add_saturate_spec (env : CPUARMState) (a b : Nat) (ha : a < 2 ^ 32) (hb : b < 2 ^ 32) :
    s32 (add_saturate env a b).1 = max (-2 ^ 31) (min (s32 a + s32 b) (2 ^ 31 - 1)) ∧
    (add_saturate env a b).2.QF =
      (if s32 a + s32 b < -2 ^ 31 ∨ s32 a + s32 b > 2 ^ 31 - 1 then 1 else env.QF) ∧
    (s32 a + s32 b < -2 ^ 31 ∨ s32 a + s32 b > 2 ^ 31 - 1 →
      (add_saturate env a b).1 = if 0 ≤ s32 a then 0x7FFFFFFF else 0x80000000) := by
  have hlt : u32 ((a : Int) + b) < 2 ^ 32 := u32_lt _
  have hr : u32 ((a : Int) + b) = (a + b) % 2 ^ 32 := by unfold u32; omega
  have hc := sat_add_cond a b _ ha hb hlt
  by_cases h : ((u32 ((a : Int) + b) ^^^ a) &&& SIGNBIT) ≠ 0 ∧ ((a ^^^ b) &&& SIGNBIT) = 0
  · have hS : add_saturate env a b =
        (not32 (u32 (s32 a >>> (31 : Nat)) ^^^ SIGNBIT), { env with QF := 1 }) := by
      simp only [add_saturate, if_pos h]
    have hs := hc.1 h
    rw [hr] at hs
    rw [hS, clamp32 a ha, s32_of_lt a ha, s32_of_lt b hb]
    refine ⟨?_, ?_, ?_⟩
    · split <;> split <;> (simp only [s32]; omega)
    · show 1 = _
      split <;> split <;> split <;> omega
    · intro _
      split <;> split <;> omega
  · have hS : add_saturate env a b = (u32 ((a : Int) + b), env) := by
      simp only [add_saturate, if_neg h]
    have hs := mt hc.2 h
    rw [hr] at hs
    rw [hS, hr, s32_of_lt _ (Nat.mod_lt _ (by norm_num)), s32_of_lt a ha, s32_of_lt b hb]
    refine ⟨?_, ?_, ?_⟩
    · split <;> split <;> split <;> omega
    · show env.QF = _
      split <;> split <;> split <;> omega
    · intro _
      split <;> split <;> omega

theorem sub_saturate_spec (env : CPUARMState) (a b : Nat) (ha : a < 2 ^ 32) (hb : b < 2 ^ 32) :
    s32 (sub_saturate env a b).1 = max (-2 ^ 31) (min (s32 a - s32 b) (2 ^ 31 - 1)) ∧
    (sub_saturate env a b).2.QF =
      (if s32 a - s32 b < -2 ^ 31 ∨ s32 a - s32 b > 2 ^ 31 - 1 then 1 else env.QF) ∧
    (s32 a - s32 b < -2 ^ 31 ∨ s32 a - s32 b > 2 ^ 31 - 1 →
      (sub_saturate env a b).1 = if 0 ≤ s32 a then 0x7FFFFFFF else 0x80000000) := by
  have hlt : u32 ((a : Int) - b) < 2 ^ 32 := u32_lt _
  have hr : (u32 ((a : Int) - b) : Int) = ((a : Int) - b) % 2 ^ 32 := by unfold u32; omega
  have hc := sat_sub_cond a b _ ha hb hlt
  by_cases h : ((u32 ((a : Int) - b) ^^^ a) &&& SIGNBIT) ≠ 0 ∧ ((a ^^^ b) &&& SIGNBIT) ≠ 0
  · have hS : sub_saturate env a b =
        (not32 (u32 (s32 a >>> (31 : Nat)) ^^^ SIGNBIT), { env with QF := 1 }) := by
      simp only [sub_saturate, if_pos h]
    have hs := hc.1 h
    rw [hS, clamp32 a ha, s32_of_lt a ha, s32_of_lt b hb]
    refine ⟨?_, ?_, ?_⟩
    · split <;> split <;> (simp only [s32]; omega)
    · show 1 = _
      split <;> split <;> split <;> omega
    · intro _
      split <;> split <;> omega
  · have hS : sub_saturate env a b = (u32 ((a : Int) - b), env) := by
      simp only [sub_saturate, if_neg h]
    have hs := mt hc.2 h
    rw [hS, s32_of_lt _ hlt, s32_of_lt a ha, s32_of_lt b hb]
    refine ⟨?_, ?_, ?_⟩
    · split <;> split <;> split <;> omega
    · show env.QF = _
      split <;> split <;> split <;> omega
    · intro _
      split <;> split <;> omega

theorem neon_add_saturate_s64_spec (env : CPUARMState) (a b : Nat)
    (ha : a < 2 ^ 64) (hb : b < 2 ^ 64) :
    s64 (neon_add_saturate_s64 env a b).1 = max (-2 ^ 63) (min (s64 a + s64 b) (2 ^ 63 - 1)) ∧
    (neon_add_saturate_s64 env a b).2.QF =
      (if s64 a + s64 b < -2 ^ 63 ∨ s64 a + s64 b > 2 ^ 63 - 1 then 1 else env.QF) ∧
    (s64 a + s64 b < -2 ^ 63 ∨ s64 a + s64 b > 2 ^ 63 - 1 →
      (neon_add_saturate_s64 env a b).1 =
        if 0 ≤ s64 a then 0x7FFFFFFFFFFFFFFF else 0x8000000000000000) := by
  have hlt : u64 ((a : Int) + b) < 2 ^ 64 := u64_lt _
  have hr : (u64 ((a : Int) + b) : Int) = ((a : Int) + b) % 2 ^ 64 := by unfold u64; omega
  have hc := sat_add_cond64 a b _ ha hb hlt
  by_cases h : ((u64 ((a : Int) + b) ^^^ a) &&& SIGNBIT64) ≠ 0 ∧ ((a ^^^ b) &&& SIGNBIT64) = 0
  · have hS : neon_add_saturate_s64 env a b =
        (u64 (s64 a >>> (63 : Nat)) ^^^ not64 SIGNBIT64, { env with QF := 1 }) := by
      simp only [neon_add_saturate_s64, if_pos h]
    have hs := hc.1 h
    rw [hS, clamp64 a ha, s64_of_lt a ha, s64_of_lt b hb]
    refine ⟨?_, ?_, ?_⟩
    · split <;> split <;> (simp only [s64]; omega)
    · show 1 = _
      split <;> split <;> split <;> omega
    · intro _
      split <;> split <;> omega
  · have hS : neon_add_saturate_s64 env a b = (u64 ((a : Int) + b), env) := by
      simp only [neon_add_saturate_s64, if_neg h]
    have hs := mt hc.2 h
    rw [hS, s64_of_lt _ hlt, s64_of_lt a ha, s64_of_lt b hb]
    refine ⟨?_, ?_, ?_⟩
    · split <;> split <;> split <;> omega
    · show env.QF = _
      split <;> split <;> split <;> omega
    · intro _
      split <;> split <;> omega

theorem neon_sub_saturate_s64_spec (env : CPUARMState) (a b : Nat)
    (ha : a < 2 ^ 64) (hb : b < 2 ^ 64) :
    s64 (neon_sub_saturate_s64 env a b).1 = max (-2 ^ 63) (min (s64 a - s64 b) (2 ^ 63 - 1)) ∧
    (neon_sub_saturate_s64 env a b).2.QF =
      (if s64 a - s64 b < -2 ^ 63 ∨ s64 a - s64 b > 2 ^ 63 - 1 then 1 else env.QF) ∧
    (s64 a - s64 b < -2 ^ 63 ∨ s64 a - s64 b > 2 ^ 63 - 1 →
      (neon_sub_saturate_s64 env a b).1 =
        if 0 ≤ s64 a then 0x7FFFFFFFFFFFFFFF else 0x8000000000000000) := by
  have hlt : u64 ((a : Int) - b) < 2 ^ 64 := u64_lt _
  have hr : (u64 ((a : Int) - b) : Int) = ((a : Int) - b) % 2 ^ 64 := by unfold u64; omega
  have hc := sat_sub_cond64 a b _ ha hb hlt
  by_cases h : ((u64 ((a : Int) - b) ^^^ a) &&& SIGNBIT64) ≠ 0 ∧ ((a ^^^ b) &&& SIGNBIT64) ≠ 0
  · have hS : neon_sub_saturate_s64 env a b =
        (u64 (s64 a >>> (63 : Nat)) ^^^ not64 SIGNBIT64, { env with QF := 1 }) := by
      simp only [neon_sub_saturate_s64, if_pos h]
    have hs := hc.1 h
    rw [hS, clamp64 a ha, s64_of_lt a ha, s64_of_lt b hb]
    refine ⟨?_, ?_, ?_⟩
    · split <;> split <;> (simp only [s64]; omega)
    · show 1 = _
      split <;> split <;> split <;> omega
    · intro _
      split <;> split <;> omega
  · have hS : neon_sub_saturate_s64 env a b = (u64 ((a : Int) - b), env) := by
      simp only [neon_sub_saturate_s64, if_neg h]
    have hs := mt hc.2 h
    rw [hS, s64_of_lt _ hlt, s64_of_lt a ha, s64_of_lt b hb]
    refine ⟨?_, ?_, ?_⟩
    · split <;> split <;> split <;> omega
    · show env.QF = _
      split <;> split <;> split <;> omega
    · intro _
      split <;> split <;> omega

/-- Claim C8. For width 32 (`add_saturate`, `sub_saturate`) and width 64
(`neon_add_saturate_s64`, `neon_sub_saturate_s64`) the value returned is the
exact signed sum (resp. difference) clamped to `[-2^(w-1), 2^(w-1)-1]`; Q is
set to 1 iff the exact result lies outside that range and is unchanged
otherwise; on overflow the clamp value is the signed maximum when the first
operand is non-negative and the signed minimum when it is negative. -/
theorem signed_saturate_spec (env : CPUARMState) (a b c d : Nat)
    (ha : a < 2 ^ 32) (hb : b < 2 ^ 32) (hc : c < 2 ^ 64) (hd : d < 2 ^ 64) :
    (s32 (add_saturate env a b).1 = max (-2 ^ 31) (min (s32 a + s32 b) (2 ^ 31 - 1)) ∧
      (add_saturate env a b).2.QF =
        (if s32 a + s32 b < -2 ^ 31 ∨ s32 a + s32 b > 2 ^ 31 - 1 then 1 else env.QF) ∧
      (s32 a + s32 b < -2 ^ 31 ∨ s32 a + s32 b > 2 ^ 31 - 1 →
        (add_saturate env a b).1 = if 0 ≤ s32 a then 0x7FFFFFFF else 0x80000000)) ∧
    (s32 (sub_saturate env a b).1 = max (-2 ^ 31) (min (s32 a - s32 b) (2 ^ 31 - 1)) ∧
      (sub_saturate env a b).2.QF =
        (if s32 a - s32 b < -2 ^ 31 ∨ s32 a - s32 b > 2 ^ 31 - 1 then 1 else env.QF) ∧
      (s32 a - s32 b < -2 ^ 31 ∨ s32 a - s32 b > 2 ^ 31 - 1 →
        (sub_saturate env a b).1 = if 0 ≤ s32 a then 0x7FFFFFFF else 0x80000000)) ∧
    (s64 (neon_add_saturate_s64 env c d).1 = max (-2 ^ 63) (min (s64 c + s64 d) (2 ^ 63 - 1)) ∧
      (neon_add_saturate_s64 env c d).2.QF =
        (if s64 c + s64 d < -2 ^ 63 ∨ s64 c + s64 d > 2 ^ 63 - 1 then 1 else env.QF) ∧
      (s64 c + s64 d < -2 ^ 63 ∨ s64 c + s64 d > 2 ^ 63 - 1 →
        (neon_add_saturate_s64 env c d).1 =
          if 0 ≤ s64 c then 0x7FFFFFFFFFFFFFFF else 0x8000000000000000)) ∧
    (s64 (neon_sub_saturate_s64 env c d).1 = max (-2 ^ 63) (min (s64 c - s64 d) (2 ^ 63 - 1)) ∧
      (neon_sub_saturate_s64 env c d).2.QF =
        (if s64 c - s64 d < -2 ^ 63 ∨ s64 c - s64 d > 2 ^ 63 - 1 then 1 else env.QF) ∧
      (s64 c - s64 d < -2 ^ 63 ∨ s64 c - s64 d > 2 ^ 63 - 1 →
        (neon_sub_saturate_s64 env c d).1 =
          if 0 ≤ s64 c then 0x7FFFFFFFFFFFFFFF else 0x8000000000000000)) :=
  ⟨add_saturate_spec env a b ha hb, sub_saturate_spec env a b ha hb,
    neon_add_saturate_s64_spec env c d hc hd, neon_sub_saturate_s64_spec env c d hc hd⟩

/-- Witness for `signed_saturate_spec`: `INT32_MAX + 1` and `INT64_MIN - 1`. -/
theorem signed_saturate_spec_witness :
    s32 (add_saturate env0 0x7FFFFFFF 1).1 = max (-2 ^ 31) (min (s32 0x7FFFFFFF + s32 1) (2 ^ 31 - 1)) ∧
    s64 (neon_sub_saturate_s64 env0 0x8000000000000000 1).1 =
      max (-2 ^ 63) (min (s64 0x8000000000000000 - s64 1) (2 ^ 63 - 1)) :=
  ⟨(signed_saturate_spec env0 0x7FFFFFFF 1 0x8000000000000000 1
      (by decide) (by decide) (by decide) (by decide)).1.1,
   (signed_saturate_spec env0 0x7FFFFFFF 1 0x8000000000000000 1
      (by decide) (by decide) (by decide) (by decide)).2.2.2.1⟩

theorem add_usaturate_spec (env : CPUARMState) (a b : Nat) (ha : a < 2 ^ 32) (hb : b < 2 ^ 32) :
    (add_usaturate env a b).1 = min (a + b) (2 ^ 32 - 1) ∧
    (add_usaturate env a b).2.QF = (if a + b ≥ 2 ^ 32 then 1 else env.QF) := by
  have hr : u32 ((a : Int) + b) = (a + b) % 2 ^ 32 := by unfold u32; omega
  by_cases h : u32 ((a : Int) + b) < a
  · have hS : add_usaturate env a b = (not32 0, { env with QF := 1 }) := by
      simp only [add_usaturate, if_pos h]
    rw [hr] at h
    rw [hS]
    refine ⟨?_, ?_⟩
    · show not32 0 = _
      simp only [not32]; omega
    · show 1 = _
      split <;> omega
  · have hS : add_usaturate env a b = (u32 ((a : Int) + b), env) := by
      simp only [add_usaturate, if_neg h]
    rw [hr] at h
    rw [hS, hr]
    refine ⟨?_, ?_⟩
    · show (a + b) % 2 ^ 32 = _
      omega
    · show env.QF = _
      split <;> omega

theorem sub_usaturate_spec (env : CPUARMState) (a b : Nat) (ha : a < 2 ^ 32) (hb : b < 2 ^ 32) :
    ((sub_usaturate env a b).1 : Int) = max ((a : Int) - b) 0 ∧
    (sub_usaturate env a b).2.QF = (if a < b then 1 else env.QF) := by
  have hr : (u32 ((a : Int) - b) : Int) = ((a : Int) - b) % 2 ^ 32 := by unfold u32; omega
  by_cases h : u32 ((a : Int) - b) > a
  · have hS : sub_usaturate env a b = (0, { env with QF := 1 }) := by
      simp only [sub_usaturate, if_pos h]
    rw [hS]
    refine ⟨?_, ?_⟩
    · show ((0 : Nat) : Int) = _
      omega
    · show 1 = _
      split <;> omega
  · have hS : sub_usaturate env a b = (u32 ((a : Int) - b), env) := by
      simp only [sub_usaturate, if_neg h]
    rw [hS]
    refine ⟨?_, ?_⟩
    · show (u32 ((a : Int) - b) : Int) = _
      omega
    · show env.QF = _
      split <;> omega

theorem neon_add_saturate_u64_spec (env : CPUARMState) (a b : Nat)
    (ha : a < 2 ^ 64) (hb : b < 2 ^ 64) :
    (neon_add_saturate_u64 env a b).1 = min (a + b) (2 ^ 64 - 1) ∧
    (neon_add_saturate_u64 env a b).2.QF = (if a + b ≥ 2 ^ 64 then 1 else env.QF) := by
  have hr : u64 ((a : Int) + b) = (a + b) % 2 ^ 64 := by unfold u64; omega
  by_cases h : u64 ((a : Int) + b) < a
  · have hS : neon_add_saturate_u64 env a b = (not64 0, { env with QF := 1 }) := by
      simp only [neon_add_saturate_u64, if_pos h]
    rw [hr] at h
    rw [hS]
    refine ⟨?_, ?_⟩
    · show not64 0 = _
      simp only [not64]; omega
    · show 1 = _
      split <;> omega
  · have hS : neon_add_saturate_u64 env a b = (u64 ((a : Int) + b), env) := by
      simp only [neon_add_saturate_u64, if_neg h]
    rw [hr] at h
    rw [hS, hr]
    refine ⟨?_, ?_⟩
    · show (a + b) % 2 ^ 64 = _
      omega
    · show env.QF = _
      split <;> omega

theorem neon_sub_saturate_u64_spec (env : CPUARMState) (a b : Nat)
    (ha : a < 2 ^ 64) (hb : b < 2 ^ 64) :
    ((neon_sub_saturate_u64 env a b).1 : Int) = max ((a : Int) - b) 0 ∧
    (neon_sub_saturate_u64 env a b).2.QF = (if a < b then 1 else env.QF) := by
  by_cases h : a < b
  · have hS : neon_sub_saturate_u64 env a b = (0, { env with QF := 1 }) := by
      simp only [neon_sub_saturate_u64, if_pos h]
    rw [hS]
    refine ⟨?_, ?_⟩
    · show ((0 : Nat) : Int) = _
      omega
    · show 1 = _
      rw [if_pos h]
  · have hS : neon_sub_saturate_u64 env a b = (u64 ((a : Int) - b), env) := by
      simp only [neon_sub_saturate_u64, if_neg h]
    rw [hS]
    refine ⟨?_, ?_⟩
    · show (u64 ((a : Int) - b) : Int) = _
      unfold u64; omega
    · show env.QF = _
      rw [if_neg h]

/-- Claim C9. For width 32 (`add_usaturate`, `sub_usaturate`) and width 64
(`neon_add_saturate_u64`, `neon_sub_saturate_u64`) the saturating add returns
`min(a+b, 2^w-1)` and the saturating subtract returns `max(a-b, 0)` over the
unbounded integers; Q is set to 1 iff the exact result lies outside
`[0, 2^w-1]` (`a+b >= 2^w`, resp. `a < b`) and is unchanged otherwise. -/
theorem unsigned_saturate_spec (env : CPUARMState) (a b c d : Nat)
    (ha : a < 2 ^ 32) (hb : b < 2 ^ 32) (hc : c < 2 ^ 64) (hd : d < 2 ^ 64) :
    ((add_usaturate env a b).1 = min (a + b) (2 ^ 32 - 1) ∧
      (add_usaturate env a b).2.QF = (if a + b ≥ 2 ^ 32 then 1 else env.QF)) ∧
    (((sub_usaturate env a b).1 : Int) = max ((a : Int) - b) 0 ∧
      (sub_usaturate env a b).2.QF = (if a < b then 1 else env.QF)) ∧
    ((neon_add_saturate_u64 env c d).1 = min (c + d) (2 ^ 64 - 1) ∧
      (neon_add_saturate_u64 env c d).2.QF = (if c + d ≥ 2 ^ 64 then 1 else env.QF)) ∧
    (((neon_sub_saturate_u64 env c d).1 : Int) = max ((c : Int) - d) 0 ∧
      (neon_sub_saturate_u64 env c d).2.QF = (if c < d then 1 else env.QF)) :=
  ⟨add_usaturate_spec env a b ha hb, sub_usaturate_spec env a b ha hb,
    neon_add_saturate_u64_spec env c d hc hd, neon_sub_saturate_u64_spec env c d hc hd⟩

/-- Witness for `unsigned_saturate_spec`: an overflowing add and a borrowing
subtract. -/
theorem unsigned_saturate_spec_witness :
    (add_usaturate env0 0xFFFFFFFF 2).1 = min (0xFFFFFFFF + 2) (2 ^ 32 - 1) ∧
    (neon_sub_saturate_u64 env0 3 5).2.QF = (if 3 < 5 then 1 else env0.QF) :=
  ⟨(unsigned_saturate_spec env0 0xFFFFFFFF 2 3 5
      (by decide) (by decide) (by decide) (by decide)).1.1,
   (unsigned_saturate_spec env0 0xFFFFFFFF 2 3 5
      (by decide) (by decide) (by decide) (by decide)).2.2.2.2⟩

/-- Claim C10. For a signed 32-bit `val`: if `val >= 0x40000000` then
`double_saturate(val)` returns `0x7FFFFFFF` and sets Q; if
`val <= (int32)0xC0000000 = -2^30` (threshold included) it returns
`0x80000000` and sets Q; strictly between the thresholds it returns `2*val`
unclamped and leaves Q (indeed the whole state) as it was. -/
theorem double_saturate_spec (env : CPUARMState) (val : Int)
    (h1 : -2 ^ 31 ≤ val) (h2 : val < 2 ^ 31) :
    s32 0xc0000000 = -2 ^ 30 ∧
    (val ≥ 0x40000000 →
      (double_saturate env val).1 = 0x7FFFFFFF ∧ (double_saturate env val).2.QF = 1) ∧
    (val ≤ -2 ^ 30 →
      (double_saturate env val).1 = 0x80000000 ∧ (double_saturate env val).2.QF = 1) ∧
    (-2 ^ 30 < val → val < 0x40000000 →
      s32 (double_saturate env val).1 = 2 * val ∧ (double_saturate env val).2 = env) := by
  have hs : s32 0xc0000000 = -2 ^ 30 := by decide
  refine ⟨hs, ?_, ?_, ?_⟩
  · intro h
    have hS : double_saturate env val = (not32 SIGNBIT, { env with QF := 1 }) := by
      simp only [double_saturate, if_pos h]
    have hv : not32 SIGNBIT = 0x7FFFFFFF := by decide
    rw [hS]
    exact ⟨hv, rfl⟩
  · intro h
    have hn : ¬ val ≥ 0x40000000 := by omega
    have hm : val ≤ s32 0xc0000000 := by rw [hs]; exact h
    have hS : double_saturate env val = (SIGNBIT, { env with QF := 1 }) := by
      simp only [double_saturate, if_neg hn, if_pos hm]
    have hv : SIGNBIT = 0x80000000 := rfl
    rw [hS]
    exact ⟨hv, rfl⟩
  · intro ha hb
    have hn : ¬ val ≥ 0x40000000 := by omega
    have hm : ¬ val ≤ s32 0xc0000000 := by rw [hs]; omega
    have hS : double_saturate env val = (u32 (val * 2 ^ 1), env) := by
      simp only [double_saturate, if_neg hn, if_neg hm]
    rw [hS]
    refine ⟨?_, rfl⟩
    show s32 (u32 (val * 2 ^ 1)) = 2 * val
    rw [s32_u32 _ (by omega) (by omega)]
    omega

/-- Witness for `double_saturate_spec` at the lower threshold `-2^30` itself. -/
theorem double_saturate_spec_witness :
    (double_saturate env0 (-2 ^ 30)).1 = 0x80000000 ∧ (double_saturate env0 (-2 ^ 30)).2.QF = 1 :=
  (double_saturate_spec env0 (-2 ^ 30) (by decide) (by decide)).2.2.1 (by decide)

/-! ## Flag-preserving shifts -/

theorem u32_s32 (x : Nat) (hx : x < 2 ^ 32) : u32 (s32 x) = x := by
  unfold u32 s32; split <;> omega

/-- Claim C20. For every 32-bit `x`, every `i` and every state, `shl`, `shr`
and `sar` return exactly the values returned by `shl_cc`, `shr_cc` and
`sar_cc` (the amount entering only through `i mod 256`), and leave the whole
CPU state, carry flag included, unchanged. -/
theorem shift_agrees_with_cc (env : CPUARMState) (x i : Nat) (hx : x < 2 ^ 32) :
    (shl env x i).1 = (shl_cc env x i).1 ∧
    (shr env x i).1 = (shr_cc env x i).1 ∧
    (sar env x i).1 = (sar_cc env x i).1 ∧
    (shl env x i).2 = env ∧ (shr env x i).2 = env ∧ (sar env x i).2 = env ∧
    (∀ j, j % 256 = i % 256 →
      (shl env x j).1 = (shl env x i).1 ∧ (shr env x j).1 = (shr env x i).1 ∧
      (sar env x j).1 = (sar env x i).1) := by
  refine ⟨?_, ?_, ?_, ?_, ?_, ?_, ?_⟩
  · simp only [shl, shl_cc, WR_cpu_CF]
    by_cases h32 : i &&& 0xff ≥ 32
    · simp only [if_pos h32]
      split <;> rfl
    · simp only [if_neg h32]
      by_cases h0 : i &&& 0xff = 0
      · simp only [ne_eq, h0, not_true_eq_false, if_false, Nat.shiftLeft_zero]
        exact Nat.mod_eq_of_lt hx
      · simp only [ne_eq, h0, not_false_eq_true, if_true]
  · simp only [shr, shr_cc, WR_cpu_CF]
    by_cases h32 : i &&& 0xff ≥ 32
    · simp only [if_pos h32]
      split <;> rfl
    · simp only [if_neg h32]
      by_cases h0 : i &&& 0xff = 0
      · simp only [ne_eq, h0, not_true_eq_false, if_false, Nat.shiftRight_zero]
      · simp only [ne_eq, h0, not_false_eq_true, if_true]
  · simp only [sar, sar_cc, WR_cpu_CF]
    by_cases h32 : i &&& 0xff ≥ 32
    · simp only [if_pos h32]
    · simp only [if_neg h32]
      by_cases h0 : i &&& 0xff = 0
      · simp only [ne_eq, h0, not_true_eq_false, if_false]
        show u32 (s32 x >>> (0 : Nat)) = x
        rw [int_shr, pow_zero, Int.ediv_one]
        exact u32_s32 x hx
      · simp only [ne_eq, h0, not_false_eq_true, if_true]
  · simp only [shl]; split <;> rfl
  · simp only [shr]; split <;> rfl
  · rfl
  · intro j hj
    have h : j &&& 0xff = i &&& 0xff := by rw [and_ff, and_ff, hj]
    simp only [shl, shr, sar, h]
    exact ⟨trivial, trivial, trivial⟩

/-- Witness for `shift_agrees_with_cc`: amount 32 encoded above the low byte. -/
theorem shift_agrees_with_cc_witness :
    (shl env0 0x80000001 0x120).1 = (shl_cc env0 0x80000001 0x120).1 ∧
    (shr env0 0x80000001 0x120).1 = (shr_cc env0 0x80000001 0x120).1 ∧
    (sar env0 0x80000001 0x120).1 = (sar_cc env0 0x80000001 0x120).1 :=
  ⟨(shift_agrees_with_cc env0 0x80000001 0x120 (by decide)).1,
   (shift_agrees_with_cc env0 0x80000001 0x120 (by decide)).2.1,
   (shift_agrees_with_cc env0 0x80000001 0x120 (by decide)).2.2.1⟩

/-! ## Bit-width saturation -/

/-- The mask `(1u << shift) - 1` for a width below 32. -/
theorem mask_eq (s : Nat) (hs : s ≤ 31) :
    u32 ((((1 <<< s) % 2 ^ 32 : Nat) : Int) - 1) = 2 ^ s - 1 ∧ 1 ≤ 2 ^ s ∧ 2 ^ s ≤ 2 ^ 31 := by
  have h1 : 1 ≤ 2 ^ s := Nat.one_le_two_pow
  have h2 : 2 ^ s ≤ 2 ^ 31 := Nat.pow_le_pow_right (by norm_num) hs
  have h3 : (1 <<< s) % 2 ^ 32 = 2 ^ s := by
    rw [Nat.one_shiftLeft]
    exact Nat.mod_eq_of_lt (by omega)
  refine ⟨?_, h1, h2⟩
  rw [h3]
  generalize 2 ^ s = P at *
  unfold u32; omega

/-- The test `top > 0` of `do_ssat`. -/
theorem top_pos (v : Int) (s : Nat) : v >>> s > 0 ↔ ((2 ^ s : Nat) : Int) ≤ v := by
  have hp : (0 : Int) < ((2 ^ s : Nat) : Int) := by positivity
  rw [Int.shiftRight_eq_div_pow]
  have h := Int.le_ediv_iff_mul_le (a := 1) (b := v) hp
  constructor
  · intro h1
    have := h.1 (by omega)
    omega
  · intro h1
    have := h.2 (by omega)
    omega

/-- The test `top < -1` of `do_ssat`. -/
theorem top_neg (v : Int) (s : Nat) : v >>> s < -1 ↔ v < -((2 ^ s : Nat) : Int) := by
  have hp : (0 : Int) < ((2 ^ s : Nat) : Int) := by positivity
  rw [Int.shiftRight_eq_div_pow]
  have h := Int.ediv_lt_iff_lt_mul (a := v) (b := -1) hp
  constructor
  · intro h1
    have := h.1 h1
    omega
  · intro h1
    exact h.2 (by omega)

theorem do_ssat_spec (env : CPUARMState) (v : Int) (s : Nat)
    (h1 : -2 ^ 31 ≤ v) (h2 : v < 2 ^ 31) (hs : s ≤ 31) :
    s32 (do_ssat env v s).1 = max (-2 ^ s) (min v (2 ^ s - 1)) ∧
    (do_ssat env v s).1 < 2 ^ 32 ∧
    (do_ssat env v s).2 = (if v < -2 ^ s ∨ v > 2 ^ s - 1 then { env with QF := 1 } else env) := by
  obtain ⟨hm, hP1, hP2⟩ := mask_eq s hs
  have hc : ((2 : Int) ^ s) = ((2 ^ s : Nat) : Int) := by push_cast; rfl
  rw [hc]
  by_cases ht : v >>> s > 0
  · have hS : do_ssat env v s = (2 ^ s - 1, { env with QF := 1 }) := by
      simp only [do_ssat, if_pos ht, hm]
    have hv := (top_pos v s).1 ht
    rw [hS]
    generalize 2 ^ s = P at *
    refine ⟨?_, ?_, ?_⟩
    · show s32 (P - 1) = _
      unfold s32; split <;> omega
    · show P - 1 < 2 ^ 32
      omega
    · have : v < -(P : Int) ∨ v > (P : Int) - 1 := by omega
      rw [if_pos this]
  · by_cases hn : v >>> s < -1
    · have hS : do_ssat env v s = (not32 (2 ^ s - 1), { env with QF := 1 }) := by
        simp only [do_ssat, if_neg ht, if_pos hn, hm]
      have hv := (top_neg v s).1 hn
      rw [hS]
      generalize 2 ^ s = P at *
      refine ⟨?_, ?_, ?_⟩
      · show s32 (not32 (P - 1)) = _
        unfold s32 not32; split <;> omega
      · show not32 (P - 1) < 2 ^ 32
        unfold not32; omega
      · have : v < -(P : Int) ∨ v > (P : Int) - 1 := by omega
        rw [if_pos this]
    · have hS : do_ssat env v s = (u32 v, env) := by
        simp only [do_ssat, if_neg ht, if_neg hn]
      have hv1 := mt (top_pos v s).2 ht
      have hv2 := mt (top_neg v s).2 hn
      rw [hS]
      generalize 2 ^ s = P at *
      refine ⟨?_, u32_lt v, ?_⟩
      · show s32 (u32 v) = _
        rw [s32_u32 v h1 h2]; omega
      · have : ¬ (v < -(P : Int) ∨ v > (P : Int) - 1) := by omega
        rw [if_neg this]

theorem do_usat_spec (env : CPUARMState) (v : Int) (s : Nat)
    (h1 : -2 ^ 31 ≤ v) (h2 : v < 2 ^ 31) (hs : s ≤ 31) :
    ((do_usat env v s).1 : Int) = max 0 (min v (2 ^ s - 1)) ∧
    (do_usat env v s).1 < 2 ^ 32 ∧
    (do_usat env v s).2 = (if v < 0 ∨ v > 2 ^ s - 1 then { env with QF := 1 } else env) := by
  obtain ⟨hm, hP1, hP2⟩ := mask_eq s hs
  have hc : ((2 : Int) ^ s) = ((2 ^ s : Nat) : Int) := by push_cast; rfl
  rw [hc]
  by_cases ht : v < 0
  · have hS : do_usat env v s = (0, { env with QF := 1 }) := by
      simp only [do_usat, if_pos ht]
    rw [hS]
    generalize 2 ^ s = P at *
    refine ⟨?_, ?_, ?_⟩
    · show ((0 : Nat) : Int) = _
      omega
    · show 0 < 2 ^ 32
      omega
    · have : v < 0 ∨ v > (P : Int) - 1 := by omega
      rw [if_pos this]
  · have hu : (u32 v : Int) = v := by unfold u32; omega
    by_cases hn : u32 v > 2 ^ s - 1
    · have hS : do_usat env v s = (2 ^ s - 1, { env with QF := 1 }) := by
        simp only [do_usat, if_neg ht, hm, if_pos hn]
      rw [hS]
      generalize 2 ^ s = P at *
      refine ⟨?_, ?_, ?_⟩
      · show ((P - 1 : Nat) : Int) = _
        omega
      · show P - 1 < 2 ^ 32
        omega
      · have : v < 0 ∨ v > (P : Int) - 1 := by omega
        rw [if_pos this]
    · have hS : do_usat env v s = (u32 v, env) := by
        simp only [do_usat, if_neg ht, hm, if_neg hn]
      rw [hS]
      generalize 2 ^ s = P at *
      refine ⟨?_, u32_lt v, ?_⟩
      · show (u32 v : Int) = _
        omega
      · have : ¬ (v < 0 ∨ v > (P : Int) - 1) := by omega
        rw [if_neg this]

/-- Claim C11. For every word `x` read as the signed 32-bit value `v` and every
width `s <= 31`, `ssat(x,s)` returns `v` clamped to `[-2^s, 2^s-1]` and
`usat(x,s)` returns `v` clamped to `[0, 2^s-1]`; Q is set to 1 iff `v` lies
outside the respective range and is unchanged otherwise (as is the rest of
the state). -/
theorem ssat_usat_spec (env : CPUARMState) (x s : Nat) (hs : s ≤ 31) :
    s32 (ssat env x s).1 = max (-2 ^ s) (min (s32 x) (2 ^ s - 1)) ∧
    (ssat env x s).1 < 2 ^ 32 ∧
    (ssat env x s).2 =
      (if s32 x < -2 ^ s ∨ s32 x > 2 ^ s - 1 then { env with QF := 1 } else env) ∧
    ((usat env x s).1 : Int) = max 0 (min (s32 x) (2 ^ s - 1)) ∧
    (usat env x s).2 = (if s32 x < 0 ∨ s32 x > 2 ^ s - 1 then { env with QF := 1 } else env) := by
  have hb := s32_bounds x
  have h1 := do_ssat_spec env (s32 x) s hb.1 hb.2 hs
  have h2 := do_usat_spec env (s32 x) s hb.1 hb.2 hs
  exact ⟨h1.1, h1.2.1, h1.2.2, h2.1, h2.2.2⟩

/-- Witness for `ssat_usat_spec`: the word `0xFFFFFF00` (-256) at width 7. -/
theorem ssat_usat_spec_witness :
    s32 (ssat env0 0xFFFFFF00 7).1 = max (-2 ^ 7) (min (s32 0xFFFFFF00) (2 ^ 7 - 1)) ∧
    ((usat env0 0xFFFFFF00 7).1 : Int) = max 0 (min (s32 0xFFFFFF00) (2 ^ 7 - 1)) :=
  ⟨(ssat_usat_spec env0 0xFFFFFF00 7 (by decide)).1,
   (ssat_usat_spec env0 0xFFFFFF00 7 (by decide)).2.2.2.1⟩

/-! ## Dual-halfword saturation -/

theorem s16_bounds (x : Nat) : -2 ^ 15 ≤ s16 x ∧ s16 x < 2 ^ 15 := by
  unfold s16; split <;> omega

theorem hi16_bounds (x : Nat) :
    -2 ^ 15 ≤ s32 x >>> (16 : Nat) ∧ s32 x >>> (16 : Nat) < 2 ^ 15 := by
  have hb := s32_bounds x
  rw [int_shr]; omega

/-- Recombination `lo16 | (hi << 16)` of the two lanes. -/
theorem pack16 (lo hi : Nat) :
    (lo % 2 ^ 16) ||| ((hi <<< 16) % 2 ^ 32) = 2 ^ 16 * (hi % 2 ^ 16) + lo % 2 ^ 16 := by
  have h1 : (hi <<< 16) % 2 ^ 32 = 2 ^ 16 * (hi % 2 ^ 16) := by
    rw [Nat.shiftLeft_eq]; omega
  rw [h1, Nat.or_comm]
  exact (Nat.mul_add_lt_is_or (Nat.mod_lt _ (by norm_num)) _).symm

theorem ssat16_eq (env : CPUARMState) (x s : Nat) :
    ssat16 env x s =
      (2 ^ 16 * ((do_ssat (do_ssat env (s16 x) s).2 (s32 x >>> (16 : Nat)) s).1 % 2 ^ 16)
          + (do_ssat env (s16 x) s).1 % 2 ^ 16,
        (do_ssat (do_ssat env (s16 x) s).2 (s32 x >>> (16 : Nat)) s).2) := by
  rw [← pack16]; rfl

theorem usat16_eq (env : CPUARMState) (x s : Nat) :
    usat16 env x s =
      (2 ^ 16 * ((do_usat (do_usat env (s16 x) s).2 (s32 x >>> (16 : Nat)) s).1 % 2 ^ 16)
          + (do_usat env (s16 x) s).1 % 2 ^ 16,
        (do_usat (do_usat env (s16 x) s).2 (s32 x >>> (16 : Nat)) s).2) := by
  rw [← pack16]; rfl

/-- The value returned by `do_ssat` does not depend on the state. -/
theorem do_ssat_val (env env1 : CPUARMState) (v : Int) (s : Nat) :
    (do_ssat env v s).1 = (do_ssat env1 v s).1 := by
  simp only [do_ssat]
  split
  · rfl
  · split <;> rfl

/-- The value returned by `do_usat` does not depend on the state. -/
theorem do_usat_val (env env1 : CPUARMState) (v : Int) (s : Nat) :
    (do_usat env v s).1 = (do_usat env1 v s).1 := by
  simp only [do_usat]
  split
  · rfl
  · split <;> rfl

theorem s32_u32_s16 (x : Nat) : s32 (u32 (s16 x)) = s16 x := by
  have hb := s16_bounds x
  exact s32_u32 _ (by omega) (by omega)

theorem s32_u32_hi16 (x : Nat) : s32 (u32 (s32 x >>> (16 : Nat))) = s32 x >>> (16 : Nat) := by
  have hb := hi16_bounds x
  exact s32_u32 _ (by omega) (by omega)

theorem ssat16_spec (env : CPUARMState) (x s : Nat) (hx : x < 2 ^ 32) (hs : s ≤ 15) :
    ((ssat16 env x s).1 % 2 ^ 16 = (ssat env (u32 (s16 x)) s).1 % 2 ^ 16) ∧
    ((ssat16 env x s).1 / 2 ^ 16 = (ssat env (u32 (s32 x >>> (16 : Nat))) s).1 % 2 ^ 16) ∧
    (-2 ^ s ≤ s16 x → s16 x ≤ 2 ^ s - 1 → (ssat16 env x s).1 % 2 ^ 16 = x % 2 ^ 16) ∧
    (-2 ^ s ≤ s32 x >>> (16 : Nat) → s32 x >>> (16 : Nat) ≤ 2 ^ s - 1 →
      (ssat16 env x s).1 / 2 ^ 16 = x / 2 ^ 16) ∧
    (ssat16 env x s).2 =
      (if (s16 x < -2 ^ s ∨ s16 x > 2 ^ s - 1) ∨
          (s32 x >>> (16 : Nat) < -2 ^ s ∨ s32 x >>> (16 : Nat) > 2 ^ s - 1)
        then { env with QF := 1 } else env) := by
  have hs31 : s ≤ 31 := by omega
  have hl := s16_bounds x
  have hh := hi16_bounds x
  have hA := do_ssat_spec env (s16 x) s (by omega) (by omega) hs31
  have hB := do_ssat_spec (do_ssat env (s16 x) s).2 (s32 x >>> (16 : Nat)) s (by omega) (by omega) hs31
  have hlo : (ssat env (u32 (s16 x)) s).1 = (do_ssat env (s16 x) s).1 := by
    simp only [ssat, s32_u32_s16]
  have hhi : (ssat env (u32 (s32 x >>> (16 : Nat))) s).1
      = (do_ssat (do_ssat env (s16 x) s).2 (s32 x >>> (16 : Nat)) s).1 := by
    simp only [ssat, s32_u32_hi16]
    exact do_ssat_val _ _ _ _
  rw [ssat16_eq, hlo, hhi]
  have hx16 : s32 x >>> (16 : Nat) = s32 x / 2 ^ 16 := int_shr _ _
  have hsx := s32_of_lt x hx
  refine ⟨?_, ?_, ?_, ?_, ?_⟩
  · show (2 ^ 16 * _ + _) % 2 ^ 16 = _
    omega
  · show (2 ^ 16 * _ + _) / 2 ^ 16 = _
    omega
  · intro h1 h2
    show (2 ^ 16 * _ + _) % 2 ^ 16 = _
    have h3 := hA.1
    have h4 := hA.2.1
    generalize (do_ssat env (s16 x) s).1 = a at *
    generalize (do_ssat (do_ssat env (s16 x) s).2 (s32 x >>> (16 : Nat)) s).1 = b at *
    generalize (2 : Int) ^ s = P at *
    unfold s32 at h3
    unfold s16 at h1 h2 h3
    split at h3 <;> split at h3 <;> omega
  · intro h1 h2
    show (2 ^ 16 * _ + _) / 2 ^ 16 = _
    have h3 := hB.1
    have h4 := hB.2.1
    generalize (do_ssat env (s16 x) s).1 = a at *
    generalize (do_ssat (do_ssat env (s16 x) s).2 (s32 x >>> (16 : Nat)) s).1 = b at *
    generalize (2 : Int) ^ s = P at *
    by_cases c : x < 2 ^ 31
    · rw [if_pos c] at hsx
      rw [hx16, hsx] at h1 h2 h3
      unfold s32 at h3
      split at h3 <;> omega
    · rw [if_neg c] at hsx
      rw [hx16, hsx] at h1 h2 h3
      unfold s32 at h3
      split at h3 <;> omega
  · show (do_ssat (do_ssat env (s16 x) s).2 (s32 x >>> (16 : Nat)) s).2 = _
    rw [hB.2.2, hA.2.2]
    by_cases c1 : s16 x < -2 ^ s ∨ s16 x > 2 ^ s - 1
    · by_cases c2 : s32 x >>> (16 : Nat) < -2 ^ s ∨ s32 x >>> (16 : Nat) > 2 ^ s - 1
      · rw [if_pos c1, if_pos c2, if_pos (Or.inl c1)]
      · rw [if_pos c1, if_neg c2, if_pos (Or.inl c1)]
    · by_cases c2 : s32 x >>> (16 : Nat) < -2 ^ s ∨ s32 x >>> (16 : Nat) > 2 ^ s - 1
      · rw [if_neg c1, if_pos c2, if_pos (Or.inr c2)]
      · rw [if_neg c1, if_neg c2, if_neg (fun h => h.elim c1 c2)]

theorem usat16_spec (env : CPUARMState) (x s : Nat) (hx : x < 2 ^ 32) (hs : s ≤ 15) :
    ((usat16 env x s).1 % 2 ^ 16 = (usat env (u32 (s16 x)) s).1 % 2 ^ 16) ∧
    ((usat16 env x s).1 / 2 ^ 16 = (usat env (u32 (s32 x >>> (16 : Nat))) s).1 % 2 ^ 16) ∧
    (0 ≤ s16 x → s16 x ≤ 2 ^ s - 1 → (usat16 env x s).1 % 2 ^ 16 = x % 2 ^ 16) ∧
    (0 ≤ s32 x >>> (16 : Nat) → s32 x >>> (16 : Nat) ≤ 2 ^ s - 1 →
      (usat16 env x s).1 / 2 ^ 16 = x / 2 ^ 16) ∧
    (usat16 env x s).2 =
      (if (s16 x < 0 ∨ s16 x > 2 ^ s - 1) ∨
          (s32 x >>> (16 : Nat) < 0 ∨ s32 x >>> (16 : Nat) > 2 ^ s - 1)
        then { env with QF := 1 } else env) := by
  have hs31 : s ≤ 31 := by omega
  have hl := s16_bounds x
  have hh := hi16_bounds x
  have hA := do_usat_spec env (s16 x) s (by omega) (by omega) hs31
  have hB := do_usat_spec (do_usat env (s16 x) s).2 (s32 x >>> (16 : Nat)) s (by omega) (by omega) hs31
  have hlo : (usat env (u32 (s16 x)) s).1 = (do_usat env (s16 x) s).1 := by
    simp only [usat, s32_u32_s16]
  have hhi : (usat env (u32 (s32 x >>> (16 : Nat))) s).1
      = (do_usat (do_usat env (s16 x) s).2 (s32 x >>> (16 : Nat)) s).1 := by
    simp only [usat, s32_u32_hi16]
    exact do_usat_val _ _ _ _
  rw [usat16_eq, hlo, hhi]
  have hx16 : s32 x >>> (16 : Nat) = s32 x / 2 ^ 16 := int_shr _ _
  have hsx := s32_of_lt x hx
  refine ⟨?_, ?_, ?_, ?_, ?_⟩
  · show (2 ^ 16 * _ + _) % 2 ^ 16 = _
    omega
  · show (2 ^ 16 * _ + _) / 2 ^ 16 = _
    omega
  · intro h1 h2
    show (2 ^ 16 * _ + _) % 2 ^ 16 = _
    have h3 := hA.1
    have h4 := hA.2.1
    generalize (do_usat env (s16 x) s).1 = a at *
    generalize (do_usat (do_usat env (s16 x) s).2 (s32 x >>> (16 : Nat)) s).1 = b at *
    generalize (2 : Int) ^ s = P at *
    unfold s16 at h1 h2 h3
    split at h3 <;> omega
  · intro h1 h2
    show (2 ^ 16 * _ + _) / 2 ^ 16 = _
    have h3 := hB.1
    have h4 := hB.2.1
    generalize (do_usat env (s16 x) s).1 = a at *
    generalize (do_usat (do_usat env (s16 x) s).2 (s32 x >>> (16 : Nat)) s).1 = b at *
    generalize (2 : Int) ^ s = P at *
    by_cases c : x < 2 ^ 31
    · rw [if_pos c] at hsx
      rw [hx16, hsx] at h1 h2 h3
      omega
    · rw [if_neg c] at hsx
      rw [hx16, hsx] at h1 h2 h3
      omega
  · show (do_usat (do_usat env (s16 x) s).2 (s32 x >>> (16 : Nat)) s).2 = _
    rw [hB.2.2, hA.2.2]
    by_cases c1 : s16 x < 0 ∨ s16 x > 2 ^ s - 1
    · by_cases c2 : s32 x >>> (16 : Nat) < 0 ∨ s32 x >>> (16 : Nat) > 2 ^ s - 1
      · rw [if_pos c1, if_pos c2, if_pos (Or.inl c1)]
      · rw [if_pos c1, if_neg c2, if_pos (Or.inl c1)]
    · by_cases c2 : s32 x >>> (16 : Nat) < 0 ∨ s32 x >>> (16 : Nat) > 2 ^ s - 1
      · rw [if_neg c1, if_pos c2, if_pos (Or.inr c2)]
      · rw [if_neg c1, if_neg c2, if_neg (fun h => h.elim c1 c2)]

/-- Claim C12. For every 32-bit packed `x` and width `s <= 15`, `ssat16` and
`usat16` act lane-wise: the low 16 bits of the result are the low 16 bits of
`ssat` (resp. `usat`) applied to the sign-extended low halfword, the high 16
bits are the low 16 bits of `ssat` (resp. `usat`) applied to the sign-extended
high halfword; a lane that is in range is returned unmodified whatever the
other lane is; Q is set to 1 iff at least one lane was clamped and the state
is otherwise unchanged. -/
theorem sat16_lanes (env : CPUARMState) (x s : Nat) (hx : x < 2 ^ 32) (hs : s ≤ 15) :
    (((ssat16 env x s).1 % 2 ^ 16 = (ssat env (u32 (s16 x)) s).1 % 2 ^ 16) ∧
      ((ssat16 env x s).1 / 2 ^ 16 = (ssat env (u32 (s32 x >>> (16 : Nat))) s).1 % 2 ^ 16) ∧
      (-2 ^ s ≤ s16 x → s16 x ≤ 2 ^ s - 1 → (ssat16 env x s).1 % 2 ^ 16 = x % 2 ^ 16) ∧
      (-2 ^ s ≤ s32 x >>> (16 : Nat) → s32 x >>> (16 : Nat) ≤ 2 ^ s - 1 →
        (ssat16 env x s).1 / 2 ^ 16 = x / 2 ^ 16) ∧
      (ssat16 env x s).2 =
        (if (s16 x < -2 ^ s ∨ s16 x > 2 ^ s - 1) ∨
            (s32 x >>> (16 : Nat) < -2 ^ s ∨ s32 x >>> (16 : Nat) > 2 ^ s - 1)
          then { env with QF := 1 } else env)) ∧
    (((usat16 env x s).1 % 2 ^ 16 = (usat env (u32 (s16 x)) s).1 % 2 ^ 16) ∧
      ((usat16 env x s).1 / 2 ^ 16 = (usat env (u32 (s32 x >>> (16 : Nat))) s).1 % 2 ^ 16) ∧
      (0 ≤ s16 x → s16 x ≤ 2 ^ s - 1 → (usat16 env x s).1 % 2 ^ 16 = x % 2 ^ 16) ∧
      (0 ≤ s32 x >>> (16 : Nat) → s32 x >>> (16 : Nat) ≤ 2 ^ s - 1 →
        (usat16 env x s).1 / 2 ^ 16 = x / 2 ^ 16) ∧
      (usat16 env x s).2 =
        (if (s16 x < 0 ∨ s16 x > 2 ^ s - 1) ∨
            (s32 x >>> (16 : Nat) < 0 ∨ s32 x >>> (16 : Nat) > 2 ^ s - 1)
          then { env with QF := 1 } else env)) :=
  ⟨ssat16_spec env x s hx hs, usat16_spec env x s hx hs⟩

/-- Witness for `sat16_lanes`: at width 7 the low lane `0x7FFF` overflows and
the high lane `0x0001` is in range, so the high half is returned unmodified
and Q is set. -/
theorem sat16_lanes_witness :
    (ssat16 env0 0x00017FFF 7).1 / 2 ^ 16 = 0x00017FFF / 2 ^ 16 ∧
    (ssat16 env0 0x00017FFF 7).2 =
      (if (s16 0x00017FFF < -2 ^ 7 ∨ s16 0x00017FFF > 2 ^ 7 - 1) ∨
          (s32 0x00017FFF >>> (16 : Nat) < -2 ^ 7 ∨ s32 0x00017FFF >>> (16 : Nat) > 2 ^ 7 - 1)
        then { env0 with QF := 1 } else env0) :=
  ⟨(sat16_lanes env0 0x00017FFF 7 (by decide) (by decide)).1.2.2.2.1 (by decide) (by decide),
   (sat16_lanes env0 0x00017FFF 7 (by decide) (by decide)).1.2.2.2.2⟩

/-! ## Table lookup -/

/-- Masking with `0xff << n` selects the byte at bit offset `n`. -/
theorem and_shl_mask (x n : Nat) : x &&& (0xff <<< n) = ((x >>> n) &&& 0xff) <<< n := by
  apply Nat.eq_of_testBit_eq
  intro i
  rw [Nat.testBit_and, Nat.testBit_shiftLeft, Nat.testBit_shiftLeft, Nat.testBit_and,
    Nat.testBit_shiftRight]
  by_cases h : i ≥ n
  · have : n + (i - n) = i := by omega
    simp [h, this]
  · simp [h]

/-- The byte of lane `k` selected by `neon_tbl`. -/
theorem neon_tbl_step_eq (env : CPUARMState) (ireg dflt rn maxindex val k : Nat) (hk : k < 4) :
    neon_tbl_step env ireg dflt rn maxindex val (8 * k) =
      val ||| 2 ^ (8 * k) *
        (if ireg / 2 ^ (8 * k) % 256 < maxindex then
          env.vfp_regs (rn + ireg / 2 ^ (8 * k) % 256 / 8)
            / 2 ^ (8 * (ireg / 2 ^ (8 * k) % 256 % 8)) % 256
        else dflt / 2 ^ (8 * k) % 256) := by
  have hidx : (ireg >>> (8 * k)) &&& 0xff = ireg / 2 ^ (8 * k) % 256 := by
    rw [Nat.shiftRight_eq_div_pow]; exact Nat.and_pow_two_sub_one_eq_mod _ 8
  have hmask : (0xff <<< (8 * k)) % 2 ^ 32 = 0xff <<< (8 * k) := by
    apply Nat.mod_eq_of_lt
    rw [Nat.shiftLeft_eq]
    have : 2 ^ (8 * k) ≤ 2 ^ 24 := Nat.pow_le_pow_right (by norm_num) (by omega)
    omega
  simp only [neon_tbl_step, hidx, hmask]
  split
  · congr 1
    generalize ireg / 2 ^ (8 * k) % 256 = idx
    have h3 : idx >>> 3 = idx / 8 := by rw [Nat.shiftRight_eq_div_pow]
    have h7 : (idx &&& 7) <<< 3 = 8 * (idx % 8) := by
      rw [Nat.shiftLeft_eq, Nat.and_pow_two_sub_one_eq_mod idx 3]; omega
    rw [h3, h7, Nat.shiftRight_eq_div_pow]
    have hb : (env.vfp_regs (rn + idx / 8) / 2 ^ (8 * (idx % 8))) &&& 0xff
        = env.vfp_regs (rn + idx / 8) / 2 ^ (8 * (idx % 8)) % 256 :=
      Nat.and_pow_two_sub_one_eq_mod _ 8
    rw [hb, Nat.shiftLeft_eq, Nat.mul_comm]
    apply Nat.mod_eq_of_lt
    have h1 : 2 ^ (8 * k) ≤ 2 ^ 24 := Nat.pow_le_pow_right (by norm_num) (by omega)
    have h2 : env.vfp_regs (rn + idx / 8) / 2 ^ (8 * (idx % 8)) % 256 ≤ 255 := by omega
    calc 2 ^ (8 * k) * (env.vfp_regs (rn + idx / 8) / 2 ^ (8 * (idx % 8)) % 256)
        ≤ 2 ^ 24 * 255 := Nat.mul_le_mul h1 h2
      _ < 2 ^ 32 := by norm_num
  · congr 1
    rw [and_shl_mask, Nat.shiftLeft_eq, Nat.mul_comm, Nat.shiftRight_eq_div_pow]
    congr 1
    exact Nat.and_pow_two_sub_one_eq_mod _ 8

/-- Four byte lanes combined with `|` form the little-endian word. -/
theorem or_lanes (c0 c1 c2 c3 : Nat) (h0 : c0 < 256) (h1 : c1 < 256) (h2 : c2 < 256) :
    (((0 ||| 2 ^ (8 * 0) * c0) ||| 2 ^ (8 * 1) * c1) ||| 2 ^ (8 * 2) * c2) ||| 2 ^ (8 * 3) * c3
      = c0 + 2 ^ 8 * c1 + 2 ^ 16 * c2 + 2 ^ 24 * c3 := by
  have e0 : 0 ||| 2 ^ (8 * 0) * c0 = c0 := by simp
  have e1 : c0 ||| 2 ^ (8 * 1) * c1 = 2 ^ 8 * c1 + c0 := by
    rw [Nat.or_comm]; exact (Nat.mul_add_lt_is_or (by omega) _).symm
  have e2 : (2 ^ 8 * c1 + c0) ||| 2 ^ (8 * 2) * c2 = 2 ^ 16 * c2 + (2 ^ 8 * c1 + c0) := by
    rw [Nat.or_comm]; exact (Nat.mul_add_lt_is_or (by omega) _).symm
  have e3 : (2 ^ 16 * c2 + (2 ^ 8 * c1 + c0)) ||| 2 ^ (8 * 3) * c3
      = 2 ^ 24 * c3 + (2 ^ 16 * c2 + (2 ^ 8 * c1 + c0)) := by
    rw [Nat.or_comm]; exact (Nat.mul_add_lt_is_or (by omega) _).symm
  rw [e0, e1, e2, e3]; omega

theorem neon_tbl_val (env : CPUARMState) (ireg dflt rn maxindex : Nat) :
    (neon_tbl env ireg dflt rn maxindex).1 =
      (if byte 0 ireg < maxindex then table_byte env rn (byte 0 ireg) else byte 0 dflt)
      + 2 ^ 8 * (if byte 1 ireg < maxindex then table_byte env rn (byte 1 ireg) else byte 1 dflt)
      + 2 ^ 16 * (if byte 2 ireg < maxindex then table_byte env rn (byte 2 ireg) else byte 2 dflt)
      + 2 ^ 24 * (if byte 3 ireg < maxindex then table_byte env rn (byte 3 ireg) else byte 3 dflt) := by
  have hlt : ∀ k, (if byte k ireg < maxindex then table_byte env rn (byte k ireg)
      else byte k dflt) < 256 := by
    intro k
    split
    · exact Nat.mod_lt _ (by norm_num)
    · exact Nat.mod_lt _ (by norm_num)
  have hfold : (neon_tbl env ireg dflt rn maxindex).1 =
      neon_tbl_step env ireg dflt rn maxindex
        (neon_tbl_step env ireg dflt rn maxindex
          (neon_tbl_step env ireg dflt rn maxindex
            (neon_tbl_step env ireg dflt rn maxindex 0 (8 * 0)) (8 * 1)) (8 * 2)) (8 * 3) := rfl
  rw [hfold, neon_tbl_step_eq _ _ _ _ _ _ 3 (by norm_num), neon_tbl_step_eq _ _ _ _ _ _ 2 (by norm_num),
    neon_tbl_step_eq _ _ _ _ _ _ 1 (by norm_num), neon_tbl_step_eq _ _ _ _ _ _ 0 (by norm_num)]
  exact or_lanes _ _ _ _ (hlt 0) (hlt 1) (hlt 2)

/-- Claim C13. For each byte lane `k` in 0..3 with `idx` = byte `k` of `ireg`,
byte `k` of `neon_tbl(ireg, def, rn, maxindex)` is table byte `idx` when
`idx < maxindex` and byte `k` of `def` otherwise; the bound is exclusive; the
lane depends only on its own index lane and default byte; the CPU state is
unchanged. -/
theorem neon_tbl_spec (env : CPUARMState) (ireg dflt rn maxindex k : Nat) (hk : k < 4) :
    byte k (neon_tbl env ireg dflt rn maxindex).1 =
      (if byte k ireg < maxindex then table_byte env rn (byte k ireg) else byte k dflt) ∧
    (byte k ireg = maxindex → byte k (neon_tbl env ireg dflt rn maxindex).1 = byte k dflt) ∧
    (∀ ireg1 dflt1, byte k ireg1 = byte k ireg → byte k dflt1 = byte k dflt →
      byte k (neon_tbl env ireg1 dflt1 rn maxindex).1
        = byte k (neon_tbl env ireg dflt rn maxindex).1) ∧
    (neon_tbl env ireg dflt rn maxindex).2 = env := by
  have main : ∀ ir df, byte k (neon_tbl env ir df rn maxindex).1 =
      (if byte k ir < maxindex then table_byte env rn (byte k ir) else byte k df) := by
    intro ir df
    have hlt : ∀ j, (if byte j ir < maxindex then table_byte env rn (byte j ir)
        else byte j df) < 256 := by
      intro j
      split
      · exact Nat.mod_lt _ (by norm_num)
      · exact Nat.mod_lt _ (by norm_num)
    rw [neon_tbl_val]
    have h0 := hlt 0
    have h1 := hlt 1
    have h2 := hlt 2
    have h3 := hlt 3
    interval_cases k
    · generalize (if byte 0 ir < maxindex then table_byte env rn (byte 0 ir) else byte 0 df)
        = c0 at *
      generalize (if byte 1 ir < maxindex then table_byte env rn (byte 1 ir) else byte 1 df)
        = c1 at *
      generalize (if byte 2 ir < maxindex then table_byte env rn (byte 2 ir) else byte 2 df)
        = c2 at *
      generalize (if byte 3 ir < maxindex then table_byte env rn (byte 3 ir) else byte 3 df)
        = c3 at *
      show (c0 + 2 ^ 8 * c1 + 2 ^ 16 * c2 + 2 ^ 24 * c3) / 2 ^ (8 * 0) % 256 = c0
      omega
    · generalize (if byte 0 ir < maxindex then table_byte env rn (byte 0 ir) else byte 0 df)
        = c0 at *
      generalize (if byte 1 ir < maxindex then table_byte env rn (byte 1 ir) else byte 1 df)
        = c1 at *
      generalize (if byte 2 ir < maxindex then table_byte env rn (byte 2 ir) else byte 2 df)
        = c2 at *
      generalize (if byte 3 ir < maxindex then table_byte env rn (byte 3 ir) else byte 3 df)
        = c3 at *
      show (c0 + 2 ^ 8 * c1 + 2 ^ 16 * c2 + 2 ^ 24 * c3) / 2 ^ (8 * 1) % 256 = c1
      omega
    · generalize (if byte 0 ir < maxindex then table_byte env rn (byte 0 ir) else byte 0 df)
        = c0 at *
      generalize (if byte 1 ir < maxindex then table_byte env rn (byte 1 ir) else byte 1 df)
        = c1 at *
      generalize (if byte 2 ir < maxindex then table_byte env rn (byte 2 ir) else byte 2 df)
        = c2 at *
      generalize (if byte 3 ir < maxindex then table_byte env rn (byte 3 ir) else byte 3 df)
        = c3 at *
      show (c0 + 2 ^ 8 * c1 + 2 ^ 16 * c2 + 2 ^ 24 * c3) / 2 ^ (8 * 2) % 256 = c2
      omega
    · generalize (if byte 0 ir < maxindex then table_byte env rn (byte 0 ir) else byte 0 df)
        = c0 at *
      generalize (if byte 1 ir < maxindex then table_byte env rn (byte 1 ir) else byte 1 df)
        = c1 at *
      generalize (if byte 2 ir < maxindex then table_byte env rn (byte 2 ir) else byte 2 df)
        = c2 at *
      generalize (if byte 3 ir < maxindex then table_byte env rn (byte 3 ir) else byte 3 df)
        = c3 at *
      show (c0 + 2 ^ 8 * c1 + 2 ^ 16 * c2 + 2 ^ 24 * c3) / 2 ^ (8 * 3) % 256 = c3
      omega
  refine ⟨main ireg dflt, ?_, ?_, rfl⟩
  · intro h
    rw [main, if_neg (by omega)]
  · intro ireg1 dflt1 hi hd
    rw [main, main, hi, hd]

/-- Witness for `neon_tbl_spec`: lane 1 holds index 8 with `maxindex = 8`, so
the default byte is taken. -/
theorem neon_tbl_spec_witness :
    byte 1 (neon_tbl env0 0x00000800 0xAABBCCDD 0 8).1 = byte 1 0xAABBCCDD :=
  (neon_tbl_spec env0 0x00000800 0xAABBCCDD 0 8 1 (by decide)).2.1 (by decide)

/-! ## User-mode register access -/

theorem get_set_same (fiq : Nat) (env : CPUARMState) (r v : Nat) :
    (get_user_reg fiq (set_user_reg fiq env r v) r).1 = v := by
  unfold get_user_reg set_user_reg
  split_ifs <;> simp_all [Function.update]

theorem set_user_reg_cpsr (fiq : Nat) (env : CPUARMState) (r v : Nat) :
    (set_user_reg fiq env r v).uncached_cpsr = env.uncached_cpsr := by
  unfold set_user_reg
  split_ifs <;> rfl

theorem get_set_other (fiq : Nat) (env : CPUARMState) (r r1 v : Nat)
    (hr : r ≤ 15) (hr1 : r1 ≤ 15) (hne : r1 ≠ r) :
    (get_user_reg fiq (set_user_reg fiq env r v) r1).1 = (get_user_reg fiq env r1).1 := by
  have hc := set_user_reg_cpsr fiq env r v
  by_cases h13 : r = 13
  · have hs : set_user_reg fiq env r v =
        { env with banked_r13 := Function.update env.banked_r13 0 v } := by
      simp only [set_user_reg, if_pos h13]
    have h1 : ¬ r1 = 13 := by omega
    simp only [get_user_reg, hs, if_neg h1]
    split_ifs <;> rfl
  · by_cases h14 : r = 14
    · have hs : set_user_reg fiq env r v =
          { env with banked_r14 := Function.update env.banked_r14 0 v } := by
        simp only [set_user_reg, if_neg h13, if_pos h14]
      have h1 : ¬ r1 = 14 := by omega
      simp only [get_user_reg, hs, if_neg h1]
      split_ifs <;> rfl
    · by_cases h15 : r = 15
      · have hs : set_user_reg fiq env r v =
            { env with regs := Function.update env.regs r v } := by
          simp only [set_user_reg, if_neg h13, if_neg h14, if_pos h15]
        have h1 : ¬ r1 = 15 := by omega
        simp only [get_user_reg, hs, if_neg h1]
        split_ifs
        · rfl
        · rfl
        · rfl
        · exact Function.update_noteq hne v env.regs
      · by_cases hf : r ≥ 8 ∧ (env.uncached_cpsr &&& 0x1f) = fiq
        · have hs : set_user_reg fiq env r v =
              { env with usr_regs := Function.update env.usr_regs (r - 8) v } := by
            simp only [set_user_reg, if_neg h13, if_neg h14, if_neg h15, if_pos hf]
          simp only [get_user_reg, hs]
          split_ifs with a1 a2 a3 a4
          · rfl
          · rfl
          · rfl
          · have : r1 - 8 ≠ r - 8 := by omega
            exact Function.update_noteq this v env.usr_regs
          · rfl
        · have hs : set_user_reg fiq env r v =
              { env with regs := Function.update env.regs r v } := by
            simp only [set_user_reg, if_neg h13, if_neg h14, if_neg h15, if_neg hf]
          simp only [get_user_reg, hs]
          split_ifs
          · rfl
          · rfl
          · exact Function.update_noteq hne v env.regs
          · rfl
          · exact Function.update_noteq hne v env.regs

/-- Claim C14. For `r` in 0..15, `get_user_reg(r)` reads and
`set_user_reg(r,v)` writes exactly one location, chosen in this order:
`r = 13` is `banked_r13[0]`; `r = 14` is `banked_r14[0]`; `r = 15` is
`regs[15]`; `r` in 8..12 while the mode bits equal FIQ is `usr_regs[r-8]`;
otherwise `regs[r]`.  Hence a read after a write of `r` returns `v`, a write
to `r` leaves the value read for every other register unchanged, and in FIQ
mode register 9 reads the shadow slot `usr_regs[1]`. -/
theorem user_reg_spec (fiq : Nat) (env : CPUARMState) (r v : Nat) (hr : r ≤ 15) :
    (r = 13 → (get_user_reg fiq env r).1 = env.banked_r13 0 ∧
      set_user_reg fiq env r v = { env with banked_r13 := Function.update env.banked_r13 0 v }) ∧
    (r = 14 → (get_user_reg fiq env r).1 = env.banked_r14 0 ∧
      set_user_reg fiq env r v = { env with banked_r14 := Function.update env.banked_r14 0 v }) ∧
    (r = 15 → (get_user_reg fiq env r).1 = env.regs 15 ∧
      set_user_reg fiq env r v = { env with regs := Function.update env.regs 15 v }) ∧
    (8 ≤ r → r ≤ 12 → (env.uncached_cpsr &&& 0x1f) = fiq →
      (get_user_reg fiq env r).1 = env.usr_regs (r - 8) ∧
      set_user_reg fiq env r v =
        { env with usr_regs := Function.update env.usr_regs (r - 8) v }) ∧
    (r ≤ 12 → ¬ (8 ≤ r ∧ (env.uncached_cpsr &&& 0x1f) = fiq) →
      (get_user_reg fiq env r).1 = env.regs r ∧
      set_user_reg fiq env r v = { env with regs := Function.update env.regs r v }) ∧
    (get_user_reg fiq env r).2 = env ∧
    (get_user_reg fiq (set_user_reg fiq env r v) r).1 = v ∧
    (∀ r1, r1 ≤ 15 → r1 ≠ r →
      (get_user_reg fiq (set_user_reg fiq env r v) r1).1 = (get_user_reg fiq env r1).1) ∧
    ((env.uncached_cpsr &&& 0x1f) = fiq → (get_user_reg fiq env 9).1 = env.usr_regs 1) := by
  refine ⟨?_, ?_, ?_, ?_, ?_, ?_, get_set_same fiq env r v,
    fun r1 h1 hne => get_set_other fiq env r r1 v hr h1 hne, ?_⟩
  · intro h
    simp only [get_user_reg, set_user_reg, if_pos h]
    exact ⟨trivial, trivial⟩
  · intro h
    have h13 : ¬ r = 13 := by omega
    simp only [get_user_reg, set_user_reg, if_neg h13, if_pos h]
    exact ⟨trivial, trivial⟩
  · intro h
    have h13 : ¬ r = 13 := by omega
    have h14 : ¬ r = 14 := by omega
    subst h
    exact ⟨rfl, rfl⟩
  · intro h8 h12 hf
    have h13 : ¬ r = 13 := by omega
    have h14 : ¬ r = 14 := by omega
    have h15 : ¬ r = 15 := by omega
    have hc : r ≥ 8 ∧ (env.uncached_cpsr &&& 0x1f) = fiq := ⟨h8, hf⟩
    simp only [get_user_reg, set_user_reg, if_neg h13, if_neg h14, if_neg h15, if_pos hc]
    exact ⟨trivial, trivial⟩
  · intro h12 hn
    have h13 : ¬ r = 13 := by omega
    have h14 : ¬ r = 14 := by omega
    have h15 : ¬ r = 15 := by omega
    have hc : ¬ (r ≥ 8 ∧ (env.uncached_cpsr &&& 0x1f) = fiq) := hn
    simp only [get_user_reg, set_user_reg, if_neg h13, if_neg h14, if_neg h15, if_neg hc]
    exact ⟨trivial, trivial⟩
  · unfold get_user_reg
    split_ifs <;> rfl
  · intro hf
    have hc : 9 ≥ 8 ∧ (env.uncached_cpsr &&& 0x1f) = fiq := ⟨by norm_num, hf⟩
    simp only [get_user_reg, if_pos hc]
    rfl

/-- Witness for `user_reg_spec`: in FIQ mode (mode bits `0x11`) a write to
register 9 followed by a read returns the value written. -/
theorem user_reg_spec_witness :
    (get_user_reg 0x11 (set_user_reg 0x11 { env0 with uncached_cpsr := 0x11 } 9 42) 9).1 = 42 :=
  (user_reg_spec 0x11 { env0 with uncached_cpsr := 0x11 } 9 42 (by decide)).2.2.2.2.2.2.1

/-! ## The sticky Q flag -/

/-- A state that is `env`, or `env` with `QF` set, keeps a set Q and the four
primary flags. -/
theorem sticky_of_step (env env1 : CPUARMState)
    (h : env1 = env ∨ env1 = { env with QF := 1 }) :
    (env.QF = 1 → env1.QF = 1) ∧ same_nzcv env env1 := by
  rcases h with h | h
  · subst h
    exact ⟨fun hq => hq, rfl, rfl, rfl, rfl⟩
  · subst h
    exact ⟨fun _ => rfl, rfl, rfl, rfl, rfl⟩

theorem add_setq_step (env : CPUARMState) (a b : Nat) :
    (add_setq env a b).2 = env ∨ (add_setq env a b).2 = { env with QF := 1 } := by
  simp only [add_setq]
  split
  · exact Or.inr rfl
  · exact Or.inl rfl

theorem add_saturate_step (env : CPUARMState) (a b : Nat) :
    (add_saturate env a b).2 = env ∨ (add_saturate env a b).2 = { env with QF := 1 } := by
  simp only [add_saturate]
  split
  · exact Or.inr rfl
  · exact Or.inl rfl

theorem sub_saturate_step (env : CPUARMState) (a b : Nat) :
    (sub_saturate env a b).2 = env ∨ (sub_saturate env a b).2 = { env with QF := 1 } := by
  simp only [sub_saturate]
  split
  · exact Or.inr rfl
  · exact Or.inl rfl

theorem double_saturate_step (env : CPUARMState) (val : Int) :
    (double_saturate env val).2 = env ∨ (double_saturate env val).2 = { env with QF := 1 } := by
  simp only [double_saturate]
  split
  · exact Or.inr rfl
  · split
    · exact Or.inr rfl
    · exact Or.inl rfl

theorem add_usaturate_step (env : CPUARMState) (a b : Nat) :
    (add_usaturate env a b).2 = env ∨ (add_usaturate env a b).2 = { env with QF := 1 } := by
  simp only [add_usaturate]
  split
  · exact Or.inr rfl
  · exact Or.inl rfl

theorem sub_usaturate_step (env : CPUARMState) (a b : Nat) :
    (sub_usaturate env a b).2 = env ∨ (sub_usaturate env a b).2 = { env with QF := 1 } := by
  simp only [sub_usaturate]
  split
  · exact Or.inr rfl
  · exact Or.inl rfl

theorem neon_add_saturate_s64_step (env : CPUARMState) (a b : Nat) :
    (neon_add_saturate_s64 env a b).2 = env ∨ (neon_add_saturate_s64 env a b).2 = { env with QF := 1 } := by
  simp only [neon_add_saturate_s64]
  split
  · exact Or.inr rfl
  · exact Or.inl rfl

theorem neon_add_saturate_u64_step (env : CPUARMState) (a b : Nat) :
    (neon_add_saturate_u64 env a b).2 = env ∨ (neon_add_saturate_u64 env a b).2 = { env with QF := 1 } := by
  simp only [neon_add_saturate_u64]
  split
  · exact Or.inr rfl
  · exact Or.inl rfl

theorem neon_sub_saturate_s64_step (env : CPUARMState) (a b : Nat) :
    (neon_sub_saturate_s64 env a b).2 = env ∨ (neon_sub_saturate_s64 env a b).2 = { env with QF := 1 } := by
  simp only [neon_sub_saturate_s64]
  split
  · exact Or.inr rfl
  · exact Or.inl rfl

theorem neon_sub_saturate_u64_step (env : CPUARMState) (a b : Nat) :
    (neon_sub_saturate_u64 env a b).2 = env ∨ (neon_sub_saturate_u64 env a b).2 = { env with QF := 1 } := by
  simp only [neon_sub_saturate_u64]
  split
  · exact Or.inr rfl
  · exact Or.inl rfl

theorem do_ssat_step (env : CPUARMState) (val : Int) (a : Nat) :
    (do_ssat env val a).2 = env ∨ (do_ssat env val a).2 = { env with QF := 1 } := by
  simp only [do_ssat]
  split
  · exact Or.inr rfl
  · split
    · exact Or.inr rfl
    · exact Or.inl rfl

theorem do_usat_step (env : CPUARMState) (val : Int) (a : Nat) :
    (do_usat env val a).2 = env ∨ (do_usat env val a).2 = { env with QF := 1 } := by
  simp only [do_usat]
  split
  · exact Or.inr rfl
  · split
    · exact Or.inr rfl
    · exact Or.inl rfl

theorem ssat16_step (env : CPUARMState) (a b : Nat) :
    (ssat16 env a b).2 = env ∨ (ssat16 env a b).2 = { env with QF := 1 } := by
  rw [ssat16_eq]
  show (do_ssat (do_ssat env (s16 a) b).2 (s32 a >>> (16 : Nat)) b).2 = env ∨ _
  rcases do_ssat_step env (s16 a) b with h1 | h1
  · rw [h1]
    exact do_ssat_step env _ b
  · rw [h1]
    rcases do_ssat_step { env with QF := 1 } (s32 a >>> (16 : Nat)) b with h2 | h2
    · rw [h2]
      exact Or.inr rfl
    · rw [h2]
      exact Or.inr rfl

theorem usat16_step (env : CPUARMState) (a b : Nat) :
    (usat16 env a b).2 = env ∨ (usat16 env a b).2 = { env with QF := 1 } := by
  rw [usat16_eq]
  show (do_usat (do_usat env (s16 a) b).2 (s32 a >>> (16 : Nat)) b).2 = env ∨ _
  rcases do_usat_step env (s16 a) b with h1 | h1
  · rw [h1]
    exact do_usat_step env _ b
  · rw [h1]
    rcases do_usat_step { env with QF := 1 } (s32 a >>> (16 : Nat)) b with h2 | h2
    · rw [h2]
      exact Or.inr rfl
    · rw [h2]
      exact Or.inr rfl

theorem add_cc_QF (env : CPUARMState) (a b : Nat) : (add_cc env a b).2.QF = env.QF := rfl

theorem adc_cc_QF (env : CPUARMState) (a b : Nat) : (adc_cc env a b).2.QF = env.QF := by
  by_cases h : RR_cpu_CF env = 0
  · simp only [adc_cc, if_pos h]; rfl
  · simp only [adc_cc, if_neg h]; rfl

theorem sub_cc_QF (env : CPUARMState) (a b : Nat) : (sub_cc env a b).2.QF = env.QF := rfl

theorem sbc_cc_QF (env : CPUARMState) (a b : Nat) : (sbc_cc env a b).2.QF = env.QF := by
  by_cases h : RR_cpu_CF env = 0
  · simp only [sbc_cc, if_pos h]; rfl
  · simp only [sbc_cc, if_neg h]; rfl

theorem shl_QF (env : CPUARMState) (a b : Nat) : (shl env a b).2.QF = env.QF := by simp only [shl]; split <;> rfl

theorem shr_QF (env : CPUARMState) (a b : Nat) : (shr env a b).2.QF = env.QF := by simp only [shr]; split <;> rfl

theorem sar_QF (env : CPUARMState) (a b : Nat) : (sar env a b).2.QF = env.QF := rfl

theorem shl_cc_QF (env : CPUARMState) (a b : Nat) : (shl_cc env a b).2.QF = env.QF := by simp only [shl_cc, WR_cpu_CF]; split_ifs <;> rfl

theorem shr_cc_QF (env : CPUARMState) (a b : Nat) : (shr_cc env a b).2.QF = env.QF := by simp only [shr_cc, WR_cpu_CF]; split_ifs <;> rfl

theorem sar_cc_QF (env : CPUARMState) (a b : Nat) : (sar_cc env a b).2.QF = env.QF := by simp only [sar_cc, WR_cpu_CF]; split_ifs <;> rfl

theorem ror_cc_QF (env : CPUARMState) (a b : Nat) : (ror_cc env a b).2.QF = env.QF := by simp only [ror_cc, WR_cpu_CF]; split_ifs <;> rfl

theorem neon_tbl_QF (env : CPUARMState) (a b c d : Nat) : (neon_tbl env a b c d).2.QF = env.QF := rfl

theorem get_user_reg_QF (fiq : Nat) (env : CPUARMState) (a : Nat) :
    (get_user_reg fiq env a).2.QF = env.QF := by
  unfold get_user_reg; split_ifs <;> rfl

theorem set_user_reg_QF (fiq : Nat) (env : CPUARMState) (a b : Nat) :
    (set_user_reg fiq env a b).QF = env.QF := by
  unfold set_user_reg; split_ifs <;> rfl

/-- Claim C16. Q is sticky: for every helper operating on the CPU state and
every input, if Q = 1 before the call then Q = 1 after it; the
flag-arithmetic, shift, table-lookup and register-accessor helpers leave Q
exactly as it was, and the saturation helpers leave N, Z, C and V exactly as
they were. -/
theorem q_flag_sticky (env : CPUARMState) (a b c d : Nat) (val : Int) (fiq : Nat) :
    (env.QF = 1 →
      (add_setq env a b).2.QF = 1 ∧
      (add_saturate env a b).2.QF = 1 ∧
      (sub_saturate env a b).2.QF = 1 ∧
      (double_saturate env val).2.QF = 1 ∧
      (add_usaturate env a b).2.QF = 1 ∧
      (sub_usaturate env a b).2.QF = 1 ∧
      (neon_add_saturate_s64 env a b).2.QF = 1 ∧
      (neon_add_saturate_u64 env a b).2.QF = 1 ∧
      (neon_sub_saturate_s64 env a b).2.QF = 1 ∧
      (neon_sub_saturate_u64 env a b).2.QF = 1 ∧
      (ssat env a b).2.QF = 1 ∧
      (usat env a b).2.QF = 1 ∧
      (ssat16 env a b).2.QF = 1 ∧
      (usat16 env a b).2.QF = 1 ∧
      (add_cc env a b).2.QF = 1 ∧
      (adc_cc env a b).2.QF = 1 ∧
      (sub_cc env a b).2.QF = 1 ∧
      (sbc_cc env a b).2.QF = 1 ∧
      (shl env a b).2.QF = 1 ∧
      (shr env a b).2.QF = 1 ∧
      (sar env a b).2.QF = 1 ∧
      (shl_cc env a b).2.QF = 1 ∧
      (shr_cc env a b).2.QF = 1 ∧
      (sar_cc env a b).2.QF = 1 ∧
      (ror_cc env a b).2.QF = 1 ∧
      (neon_tbl env a b c d).2.QF = 1 ∧
      (get_user_reg fiq env a).2.QF = 1 ∧
      (set_user_reg fiq env a b).QF = 1) ∧
    ((add_cc env a b).2.QF = env.QF ∧
      (adc_cc env a b).2.QF = env.QF ∧
      (sub_cc env a b).2.QF = env.QF ∧
      (sbc_cc env a b).2.QF = env.QF ∧
      (shl env a b).2.QF = env.QF ∧
      (shr env a b).2.QF = env.QF ∧
      (sar env a b).2.QF = env.QF ∧
      (shl_cc env a b).2.QF = env.QF ∧
      (shr_cc env a b).2.QF = env.QF ∧
      (sar_cc env a b).2.QF = env.QF ∧
      (ror_cc env a b).2.QF = env.QF ∧
      (neon_tbl env a b c d).2.QF = env.QF ∧
      (get_user_reg fiq env a).2.QF = env.QF ∧
      (set_user_reg fiq env a b).QF = env.QF) ∧
    (same_nzcv env (add_setq env a b).2 ∧
      same_nzcv env (add_saturate env a b).2 ∧
      same_nzcv env (sub_saturate env a b).2 ∧
      same_nzcv env (double_saturate env val).2 ∧
      same_nzcv env (add_usaturate env a b).2 ∧
      same_nzcv env (sub_usaturate env a b).2 ∧
      same_nzcv env (neon_add_saturate_s64 env a b).2 ∧
      same_nzcv env (neon_add_saturate_u64 env a b).2 ∧
      same_nzcv env (neon_sub_saturate_s64 env a b).2 ∧
      same_nzcv env (neon_sub_saturate_u64 env a b).2 ∧
      same_nzcv env (ssat env a b).2 ∧
      same_nzcv env (usat env a b).2 ∧
      same_nzcv env (ssat16 env a b).2 ∧
      same_nzcv env (usat16 env a b).2) :=
  ⟨fun hQ => ⟨(sticky_of_step _ _ (add_setq_step env a b)).1 hQ,
      (sticky_of_step _ _ (add_saturate_step env a b)).1 hQ,
      (sticky_of_step _ _ (sub_saturate_step env a b)).1 hQ,
      (sticky_of_step _ _ (double_saturate_step env val)).1 hQ,
      (sticky_of_step _ _ (add_usaturate_step env a b)).1 hQ,
      (sticky_of_step _ _ (sub_usaturate_step env a b)).1 hQ,
      (sticky_of_step _ _ (neon_add_saturate_s64_step env a b)).1 hQ,
      (sticky_of_step _ _ (neon_add_saturate_u64_step env a b)).1 hQ,
      (sticky_of_step _ _ (neon_sub_saturate_s64_step env a b)).1 hQ,
      (sticky_of_step _ _ (neon_sub_saturate_u64_step env a b)).1 hQ,
      (sticky_of_step _ _ (do_ssat_step env (s32 a) b)).1 hQ,
      (sticky_of_step _ _ (do_usat_step env (s32 a) b)).1 hQ,
      (sticky_of_step _ _ (ssat16_step env a b)).1 hQ,
      (sticky_of_step _ _ (usat16_step env a b)).1 hQ,
      (add_cc_QF env a b).trans hQ,
      (adc_cc_QF env a b).trans hQ,
      (sub_cc_QF env a b).trans hQ,
      (sbc_cc_QF env a b).trans hQ,
      (shl_QF env a b).trans hQ,
      (shr_QF env a b).trans hQ,
      (sar_QF env a b).trans hQ,
      (shl_cc_QF env a b).trans hQ,
      (shr_cc_QF env a b).trans hQ,
      (sar_cc_QF env a b).trans hQ,
      (ror_cc_QF env a b).trans hQ,
      (neon_tbl_QF env a b c d).trans hQ,
      (get_user_reg_QF fiq env a).trans hQ,
      (set_user_reg_QF fiq env a b).trans hQ⟩,
    ⟨add_cc_QF env a b,
      adc_cc_QF env a b,
      sub_cc_QF env a b,
      sbc_cc_QF env a b,
      shl_QF env a b,
      shr_QF env a b,
      sar_QF env a b,
      shl_cc_QF env a b,
      shr_cc_QF env a b,
      sar_cc_QF env a b,
      ror_cc_QF env a b,
      neon_tbl_QF env a b c d,
      get_user_reg_QF fiq env a,
      set_user_reg_QF fiq env a b⟩,
    ⟨(sticky_of_step _ _ (add_setq_step env a b)).2,
      (sticky_of_step _ _ (add_saturate_step env a b)).2,
      (sticky_of_step _ _ (sub_saturate_step env a b)).2,
      (sticky_of_step _ _ (double_saturate_step env val)).2,
      (sticky_of_step _ _ (add_usaturate_step env a b)).2,
      (sticky_of_step _ _ (sub_usaturate_step env a b)).2,
      (sticky_of_step _ _ (neon_add_saturate_s64_step env a b)).2,
      (sticky_of_step _ _ (neon_add_saturate_u64_step env a b)).2,
      (sticky_of_step _ _ (neon_sub_saturate_s64_step env a b)).2,
      (sticky_of_step _ _ (neon_sub_saturate_u64_step env a b)).2,
      (sticky_of_step _ _ (do_ssat_step env (s32 a) b)).2,
      (sticky_of_step _ _ (do_usat_step env (s32 a) b)).2,
      (sticky_of_step _ _ (ssat16_step env a b)).2,
      (sticky_of_step _ _ (usat16_step env a b)).2⟩⟩

/-- Witness for `q_flag_sticky`: with Q already set, a non-saturating
`add_saturate` and a clamping `ssat16` both leave Q = 1. -/
theorem q_flag_sticky_witness :
    (add_saturate { env0 with QF := 1 } 1 2).2.QF = 1 ∧
    (ssat16 { env0 with QF := 1 } 1 2).2.QF = 1 :=
  ⟨((q_flag_sticky { env0 with QF := 1 } 1 2 0 0 0 0).1 rfl).2.1,
   ((q_flag_sticky { env0 with QF := 1 } 1 2 0 0 0 0).1 rfl).2.2.2.2.2.2.2.2.2.2.2.2.1⟩

/-! ## Shift counts -/

theorem shl_chk_lt (x n : Nat) (h : n < 32) : shl_chk x n = some ((x <<< n) % 2 ^ 32) := by
  simp only [shl_chk, if_pos h]

theorem shr_chk_lt (x n : Nat) (h : n < 32) : shr_chk x n = some (x >>> n) := by
  simp only [shr_chk, if_pos h]

theorem sar_chk_lt (v : Int) (n : Nat) (h : n < 32) : sar_chk v n = some (v >>> n) := by
  simp only [sar_chk, if_pos h]

theorem shl_checked_eq (env : CPUARMState) (x i : Nat) :
    shl_checked env x i = some (shl env x i) := by
  by_cases h : i &&& 0xff ≥ 32
  · simp only [shl_checked, shl, if_pos h]
  · simp only [shl_checked, shl, if_neg h, shl_chk_lt x _ (by omega : i &&& 0xff < 32)]
    rfl

theorem shr_checked_eq (env : CPUARMState) (x i : Nat) :
    shr_checked env x i = some (shr env x i) := by
  by_cases h : i &&& 0xff ≥ 32
  · simp only [shr_checked, shr, if_pos h]
  · simp only [shr_checked, shr, if_neg h, shr_chk_lt x _ (by omega : i &&& 0xff < 32)]
    rfl

theorem sar_checked_eq (env : CPUARMState) (x i : Nat) :
    sar_checked env x i = some (sar env x i) := by
  by_cases h : i &&& 0xff ≥ 32
  · simp only [sar_checked, sar, if_pos h, sar_chk_lt _ 31 (by norm_num)]
    rfl
  · simp only [sar_checked, sar, if_neg h, sar_chk_lt _ _ (by omega : i &&& 0xff < 32)]
    rfl

theorem shl_cc_checked_eq (env : CPUARMState) (x i : Nat) :
    shl_cc_checked env x i = some (shl_cc env x i) := by
  by_cases h : i &&& 0xff ≥ 32
  · simp only [shl_cc_checked, shl_cc, if_pos h]
    split <;> rfl
  · by_cases h0 : i &&& 0xff ≠ 0
    · simp only [shl_cc_checked, shl_cc, if_neg h, if_pos h0,
        shl_chk_lt x _ (by omega : i &&& 0xff < 32),
        shr_chk_lt x _ (by omega : 32 - (i &&& 0xff) < 32)]
      rfl
    · simp only [shl_cc_checked, shl_cc, if_neg h, if_neg h0]

theorem shr_cc_checked_eq (env : CPUARMState) (x i : Nat) :
    shr_cc_checked env x i = some (shr_cc env x i) := by
  by_cases h : i &&& 0xff ≥ 32
  · simp only [shr_cc_checked, shr_cc, if_pos h, shr_chk_lt x 31 (by norm_num)]
    split <;> rfl
  · by_cases h0 : i &&& 0xff ≠ 0
    · simp only [shr_cc_checked, shr_cc, if_neg h, if_pos h0,
        shr_chk_lt x _ (by omega : i &&& 0xff < 32),
        shr_chk_lt x _ (by omega : (i &&& 0xff) - 1 < 32)]
      rfl
    · simp only [shr_cc_checked, shr_cc, if_neg h, if_neg h0]

theorem sar_cc_checked_eq (env : CPUARMState) (x i : Nat) :
    sar_cc_checked env x i = some (sar_cc env x i) := by
  by_cases h : i &&& 0xff ≥ 32
  · simp only [sar_cc_checked, sar_cc, if_pos h, shr_chk_lt x 31 (by norm_num),
      sar_chk_lt _ 31 (by norm_num)]
    rfl
  · by_cases h0 : i &&& 0xff ≠ 0
    · simp only [sar_cc_checked, sar_cc, if_neg h, if_pos h0,
        sar_chk_lt _ _ (by omega : i &&& 0xff < 32),
        shr_chk_lt x _ (by omega : (i &&& 0xff) - 1 < 32)]
      rfl
    · simp only [sar_cc_checked, sar_cc, if_neg h, if_neg h0]

theorem ror_cc_checked_eq (env : CPUARMState) (x i : Nat) :
    ror_cc_checked env x i = some (ror_cc env x i) := by
  have hlt : (i &&& 0xff) &&& 0x1f < 32 := by
    rw [and_1f]; exact Nat.mod_lt _ (by norm_num)
  by_cases h : (i &&& 0xff) &&& 0x1f = 0
  · simp only [ror_cc_checked, ror_cc, if_pos h, shr_chk_lt x 31 (by norm_num)]
    split <;> rfl
  · simp only [ror_cc_checked, ror_cc, if_neg h,
      shr_chk_lt x _ hlt,
      shr_chk_lt x _ (by omega : ((i &&& 0xff) &&& 0x1f) - 1 < 32),
      shl_chk_lt x _ (by omega : 32 - ((i &&& 0xff) &&& 0x1f) < 32)]
    rfl

theorem do_ssat_checked_eq (env : CPUARMState) (v : Int) (s : Nat) (hs : s ≤ 31) :
    do_ssat_checked env v s = some (do_ssat env v s) := by
  have h : s < 32 := by omega
  simp only [do_ssat_checked, do_ssat, sar_chk_lt v s h, shl_chk_lt 1 s h]
  show (if v >>> s > 0 then _ else _) = _
  split
  · rfl
  · split <;> rfl

theorem do_usat_checked_eq (env : CPUARMState) (v : Int) (s : Nat) (hs : s ≤ 31) :
    do_usat_checked env v s = some (do_usat env v s) := by
  have h : s < 32 := by omega
  simp only [do_usat_checked, do_usat, shl_chk_lt 1 s h]
  show (if v < 0 then _ else _) = _
  split
  · rfl
  · split <;> rfl

theorem ssat16_checked_eq (env : CPUARMState) (x s : Nat) (hs : s ≤ 31) :
    ssat16_checked env x s = some (ssat16 env x s) := by
  simp only [ssat16_checked, do_ssat_checked_eq _ _ s hs, sar_chk_lt _ 16 (by norm_num),
    shl_chk_lt _ 16 (by norm_num)]
  rfl

theorem usat16_checked_eq (env : CPUARMState) (x s : Nat) (hs : s ≤ 31) :
    usat16_checked env x s = some (usat16 env x s) := by
  simp only [usat16_checked, do_usat_checked_eq _ _ s hs, sar_chk_lt _ 16 (by norm_num),
    shl_chk_lt _ 16 (by norm_num)]
  rfl

theorem sar_chk_ge (v : Int) (n : Nat) (h : ¬ n ≤ 31) : sar_chk v n = none := by
  have : ¬ n < 32 := by omega
  simp only [sar_chk, if_neg this]

theorem shl_chk_ge (x n : Nat) (h : ¬ n ≤ 31) : shl_chk x n = none := by
  have : ¬ n < 32 := by omega
  simp only [shl_chk, if_neg this]

theorem do_ssat_checked_none (env : CPUARMState) (v : Int) (s : Nat) (hs : ¬ s ≤ 31) :
    do_ssat_checked env v s = none := by
  simp only [do_ssat_checked, sar_chk_ge v s hs]
  rfl

theorem do_usat_checked_none (env : CPUARMState) (v : Int) (s : Nat) (hs : ¬ s ≤ 31) :
    do_usat_checked env v s = none := by
  simp only [do_usat_checked, shl_chk_ge 1 s hs]
  rfl

/-- Counterexample to claim C15 as stated: with the amount argument 32 the
helper `ssat` executes `val >> 32` and `1u << 32`, shifts whose count is not in
0..31; likewise `usat`, `ssat16` and `usat16`. -/
theorem sat_amount_not_reduced :
    ssat_checked env0 0 32 = none ∧ usat_checked env0 0 32 = none ∧
    ssat16_checked env0 0 32 = none ∧ usat16_checked env0 0 32 = none :=
  ⟨rfl, rfl, rfl, rfl⟩

/-- Claim C15, amended. The shift helpers `shl`, `shr`, `sar`, `shl_cc`,
`shr_cc`, `sar_cc` and `ror_cc` reduce the amount before use: for every
operand and every amount each shift they execute has a count in 0..31, so the
checked helper returns the value of the helper.  The helpers `ssat`, `usat`,
`ssat16` and `usat16` use their amount argument as given: every shift they
execute has a count in 0..31 exactly when the amount is at most 31. -/
theorem shift_counts_in_range (env : CPUARMState) (x i s : Nat) :
    shl_checked env x i = some (shl env x i) ∧
    shr_checked env x i = some (shr env x i) ∧
    sar_checked env x i = some (sar env x i) ∧
    shl_cc_checked env x i = some (shl_cc env x i) ∧
    shr_cc_checked env x i = some (shr_cc env x i) ∧
    sar_cc_checked env x i = some (sar_cc env x i) ∧
    ror_cc_checked env x i = some (ror_cc env x i) ∧
    (s ≤ 31 →
      ssat_checked env x s = some (ssat env x s) ∧
      usat_checked env x s = some (usat env x s) ∧
      ssat16_checked env x s = some (ssat16 env x s) ∧
      usat16_checked env x s = some (usat16 env x s)) ∧
    (¬ s ≤ 31 →
      ssat_checked env x s = none ∧ usat_checked env x s = none ∧
      ssat16_checked env x s = none ∧ usat16_checked env x s = none) := by
  refine ⟨shl_checked_eq env x i, shr_checked_eq env x i, sar_checked_eq env x i,
    shl_cc_checked_eq env x i, shr_cc_checked_eq env x i, sar_cc_checked_eq env x i,
    ror_cc_checked_eq env x i, fun hs => ?_, fun hs => ?_⟩
  · exact ⟨do_ssat_checked_eq env _ s hs, do_usat_checked_eq env _ s hs,
      ssat16_checked_eq env x s hs, usat16_checked_eq env x s hs⟩
  · refine ⟨do_ssat_checked_none env _ s hs, do_usat_checked_none env _ s hs, ?_, ?_⟩
    · simp only [ssat16_checked, do_ssat_checked_none _ _ s hs]
      rfl
    · simp only [usat16_checked, do_usat_checked_none _ _ s hs]
      rfl

/-- Witness for `shift_counts_in_range`: width 31, the largest amount for
which the saturation helpers shift in range. -/
theorem shift_counts_in_range_witness :
    ssat_checked env0 0xFFFFFFFF 31 = some (ssat env0 0xFFFFFFFF 31) ∧
    usat16_checked env0 0xFFFFFFFF 31 = some (usat16 env0 0xFFFFFFFF 31) :=
  ⟨((shift_counts_in_range env0 0xFFFFFFFF 0 31).2.2.2.2.2.2.2.1 (by decide)).1,
   ((shift_counts_in_range env0 0xFFFFFFFF 0 31).2.2.2.2.2.2.2.1 (by decide)).2.2.2⟩

/-! ## Doubling against self-addition -/

/-- Counterexample to claim C19 as stated: at `val = 0xC0000000` (`-2^30`) the
doubled value `-2^31` is representable, `add_saturate(val, val)` leaves Q at
its prior value 0, and `double_saturate(val)` sets Q. -/
theorem double_saturate_q_differs :
    2 * s32 0xC0000000 = -2 ^ 31 ∧
    (double_saturate env0 (s32 0xC0000000)).1 = (add_saturate env0 0xC0000000 0xC0000000).1 ∧
    (double_saturate env0 (s32 0xC0000000)).2.QF = 1 ∧
    (add_saturate env0 0xC0000000 0xC0000000).2.QF = 0 := by
  refine ⟨by decide, ?_, ?_, ?_⟩
  · decide
  · decide
  · decide

/-- Claim C19, amended. For every 32-bit `val` and every prior state,
`double_saturate(val)` returns the same value as `add_saturate(val, val)`;
for every `val` other than `0xC0000000` it also leaves the same final Q flag,
which is then set exactly when `2*val` lies outside `[-2^31, 2^31-1]`. -/
theorem double_saturate_vs_add (env : CPUARMState) (x : Nat) (hx : x < 2 ^ 32) :
    (double_saturate env (s32 x)).1 = (add_saturate env x x).1 ∧
    (x ≠ 0xC0000000 →
      (double_saturate env (s32 x)).2.QF = (add_saturate env x x).2.QF) ∧
    (x ≠ 0xC0000000 →
      (double_saturate env (s32 x)).2.QF =
        if 2 * s32 x < -2 ^ 31 ∨ 2 * s32 x > 2 ^ 31 - 1 then 1 else env.QF) := by
  have hthr : s32 0xc0000000 = -2 ^ 30 := by decide
  have hv := s32_of_lt x hx
  have hr : u32 ((x : Int) + x) = (x + x) % 2 ^ 32 := by unfold u32; omega
  have hc := sat_add_cond x x _ hx hx (u32_lt ((x : Int) + x))
  have hD1 : s32 x ≥ 0x40000000 →
      double_saturate env (s32 x) = (0x7FFFFFFF, { env with QF := 1 }) := by
    intro h
    simp only [double_saturate, if_pos h]
    rfl
  have hD2 : ¬ s32 x ≥ 0x40000000 → s32 x ≤ -2 ^ 30 →
      double_saturate env (s32 x) = (0x80000000, { env with QF := 1 }) := by
    intro h1 h2
    have h3 : s32 x ≤ s32 0xc0000000 := by rw [hthr]; exact h2
    simp only [double_saturate, if_neg h1, if_pos h3]
    rfl
  have hD3 : ¬ s32 x ≥ 0x40000000 → ¬ s32 x ≤ -2 ^ 30 →
      double_saturate env (s32 x) = (u32 (s32 x * 2 ^ 1), env) := by
    intro h1 h2
    have h3 : ¬ s32 x ≤ s32 0xc0000000 := by rw [hthr]; exact h2
    simp only [double_saturate, if_neg h1, if_neg h3]
  by_cases h : ((u32 ((x : Int) + x) ^^^ x) &&& SIGNBIT) ≠ 0 ∧ ((x ^^^ x) &&& SIGNBIT) = 0
  · have hA : add_saturate env x x =
        (not32 (u32 (s32 x >>> (31 : Nat)) ^^^ SIGNBIT), { env with QF := 1 }) := by
      simp only [add_saturate, if_pos h]
    have hs := hc.1 h
    rw [hr] at hs
    rw [hA, clamp32 x hx]
    by_cases hp : x < 2 ^ 31
    · have h1 : s32 x ≥ 0x40000000 := by rw [hv, if_pos hp]; omega
      rw [hD1 h1, if_pos hp]
      refine ⟨rfl, fun _ => rfl, fun _ => ?_⟩
      have : 2 * s32 x < -2 ^ 31 ∨ 2 * s32 x > 2 ^ 31 - 1 := by omega
      rw [if_pos this]
    · have h1 : ¬ s32 x ≥ 0x40000000 := by rw [hv, if_neg hp]; omega
      have h2 : s32 x ≤ -2 ^ 30 := by rw [hv, if_neg hp]; omega
      have h3 : s32 x < -2 ^ 30 := by rw [hv, if_neg hp]; omega
      rw [hD2 h1 h2, if_neg hp]
      refine ⟨rfl, fun _ => rfl, fun _ => ?_⟩
      have : 2 * s32 x < -2 ^ 31 ∨ 2 * s32 x > 2 ^ 31 - 1 := by omega
      rw [if_pos this]
  · have hA : add_saturate env x x = (u32 ((x : Int) + x), env) := by
      simp only [add_saturate, if_neg h]
    have hs := mt hc.2 h
    rw [hr] at hs
    rw [hA]
    by_cases he : x = 0xC0000000
    · have h1 : ¬ s32 x ≥ 0x40000000 := by rw [hv]; split <;> omega
      have h2 : s32 x ≤ -2 ^ 30 := by rw [hv]; split <;> omega
      rw [hD2 h1 h2, hr]
      refine ⟨?_, fun hne => absurd he hne, fun hne => absurd he hne⟩
      show 0x80000000 = (x + x) % 2 ^ 32
      omega
    · have h1 : ¬ s32 x ≥ 0x40000000 := by rw [hv]; split <;> omega
      have h2 : ¬ s32 x ≤ -2 ^ 30 := by rw [hv]; split <;> omega
      rw [hD3 h1 h2]
      refine ⟨?_, fun _ => rfl, fun _ => ?_⟩
      · show u32 (s32 x * 2 ^ 1) = u32 ((x : Int) + x)
        rw [hv]; unfold u32; split <;> omega
      · show env.QF = _
        have : ¬ (2 * s32 x < -2 ^ 31 ∨ 2 * s32 x > 2 ^ 31 - 1) := by omega
        rw [if_neg this]

/-- Witness for `double_saturate_vs_add` at `val = 0x40000000`, where both
helpers clamp to `0x7FFFFFFF` and set Q. -/
theorem double_saturate_vs_add_witness :
    (double_saturate env0 (s32 0x40000000)).1 = (add_saturate env0 0x40000000 0x40000000).1 ∧
    (double_saturate env0 (s32 0x40000000)).2.QF
      = (add_saturate env0 0x40000000 0x40000000).2.QF :=
  ⟨(double_saturate_vs_add env0 0x40000000 (by decide)).1,
   (double_saturate_vs_add env0 0x40000000 (by decide)).2.1 (by decide)⟩

/-! ## Soft-MMU fault resolution -/

theorem tlb_fill_ok (c : Collab) (cfg : Bool) (m : Machine) (addr page_addr : Nat)
    (is_write mmu_idx : Int) (retaddr : Nat)
    (h : (tlb_walk c cfg m addr page_addr is_write mmu_idx).1 = 0) :
    tlb_fill c cfg m addr page_addr is_write mmu_idx retaddr =
      Outcome.returned
        { env := m.env, cpu_single_env := m.cpu_single_env,
          cpu := Function.update m.cpu m.cpu_single_env
            (tlb_walk c cfg m addr page_addr is_write mmu_idx).2,
          log := m.log ++ (if cfg then [Event.on_tlb_miss addr is_write] else []) } := by
  unfold tlb_walk at h ⊢
  by_cases he : m.env = m.cpu_single_env <;> cases cfg <;>
    simp [tlb_fill, he, Machine.store, Machine.emit, s2e_on_tlb_miss] at h ⊢ <;>
    simp [h]

theorem tlb_fill_fail (c : Collab) (cfg : Bool) (m : Machine) (addr page_addr : Nat)
    (is_write mmu_idx : Int) (retaddr : Nat)
    (h : (tlb_walk c cfg m addr page_addr is_write mmu_idx).1 ≠ 0) :
    tlb_fill c cfg m addr page_addr is_write mmu_idx retaddr =
      Outcome.exited
        { env := m.cpu_single_env, cpu_single_env := m.cpu_single_env,
          cpu := Function.update m.cpu m.cpu_single_env
            (fail_state c cfg (tlb_walk c cfg m addr page_addr is_write mmu_idx).2 retaddr),
          log := m.log ++ fail_events c cfg addr is_write retaddr ++
            [Event.raise (fail_state c cfg
              (tlb_walk c cfg m addr page_addr is_write mmu_idx).2 retaddr).exception_index] } := by
  unfold tlb_walk at h ⊢
  by_cases he : m.env = m.cpu_single_env <;> cases cfg <;>
    by_cases hi : c.use_icount = 0 <;> by_cases hr : retaddr = 0 <;>
    rcases ht : c.tb_find_pc retaddr with _ | tb <;>
    simp [tlb_fill, fail_state, fail_events, he, hi, hr, ht, Machine.store, Machine.emit,
      s2e_on_tlb_miss, s2e_on_page_fault, raise_exception] at h ⊢ <;>
    simp [h]

/-- No raise is recorded before the raise itself. -/
theorem fail_events_no_raise (c : Collab) (cfg : Bool) (addr : Nat) (is_write : Int)
    (retaddr : Nat) (tt : Int) : Event.raise tt ∉ fail_events c cfg addr is_write retaddr := by
  cases cfg <;> by_cases hi : c.use_icount = 0 <;> by_cases hr : retaddr = 0 <;>
    rcases ht : c.tb_find_pc retaddr with _ | tb <;>
    simp [fail_events, hi, hr, ht]

/-- The reconstruction is recorded exactly when a return address is supplied
and a block is found for it. -/
theorem fail_events_restore (c : Collab) (cfg : Bool) (addr : Nat) (is_write : Int)
    (retaddr tb pc : Nat) :
    Event.restore_state tb pc ∈ fail_events c cfg addr is_write retaddr ↔
      (retaddr ≠ 0 ∧ pc = retaddr ∧ c.tb_find_pc retaddr = some tb) := by
  cases cfg <;> by_cases hi : c.use_icount = 0 <;> by_cases hr : retaddr = 0 <;>
    rcases ht : c.tb_find_pc retaddr with _ | tb1 <;>
    simp [fail_events, hi, hr, ht] <;> tauto

/-- Counterexample to claim C17 as stated: under `CONFIG_S2E` with
`use_icount` set, a failing walk with a null return address is followed by
`cpu_restore_icount`, so the CPU state at the raise is not the state the
walker left (here `icount_decr` is 1 where the walker left 0, with
`exception_index` the same). -/
theorem tlb_fill_icount_before_raise :
    (tlb_walk (sample_collab 1 1) true machine0 0 0 0 0).1 ≠ 0 ∧
    (tlb_fill (sample_collab 1 1) true machine0 0 0 0 0 0).exits = true ∧
    (tlb_walk (sample_collab 1 1) true machine0 0 0 0 0).2.icount_decr = 0 ∧
    ((tlb_fill (sample_collab 1 1) true machine0 0 0 0 0 0).machine.cpu 0).icount_decr = 1 ∧
    (tlb_fill (sample_collab 1 1) true machine0 0 0 0 0 0).machine.log =
      [Event.on_tlb_miss 0 0, Event.restore_icount, Event.on_page_fault 0 0, Event.raise 4] := by
  refine ⟨by decide, rfl, rfl, rfl, rfl⟩

/-- Claim C17, amended. If the MMU walk reports success `tlb_fill` returns
normally, without raising or reconstructing state, with the ambient `env`
pointer as on entry.  If the walk reports failure it never returns normally
but raises through `raise_exception` the exception whose kind is the
`exception_index` in the context.  `cpu_restore_state` is called before the
raise exactly when a non-null return address was supplied and `tb_find_pc`
finds a block for it.  With a null return address the state at the raise is
the state the walker left, passed through `cpu_restore_icount` when the build
is `CONFIG_S2E` and `use_icount` is set. -/
theorem tlb_fill_spec (c : Collab) (cfg : Bool) (m : Machine) (addr page_addr : Nat)
    (is_write mmu_idx : Int) (retaddr : Nat) :
    ((tlb_walk c cfg m addr page_addr is_write mmu_idx).1 = 0 →
      ∃ m1, tlb_fill c cfg m addr page_addr is_write mmu_idx retaddr = Outcome.returned m1 ∧
        m1.env = m.env ∧
        m1.cpu = Function.update m.cpu m.cpu_single_env
          (tlb_walk c cfg m addr page_addr is_write mmu_idx).2 ∧
        m1.log = m.log ++ (if cfg then [Event.on_tlb_miss addr is_write] else [])) ∧
    ((tlb_walk c cfg m addr page_addr is_write mmu_idx).1 ≠ 0 →
      ∃ m1 evs, tlb_fill c cfg m addr page_addr is_write mmu_idx retaddr = Outcome.exited m1 ∧
        m1.log = m.log ++ evs ++ [Event.raise (m1.cpu m.cpu_single_env).exception_index] ∧
        (∀ tt, Event.raise tt ∉ evs) ∧
        (∀ tb pc, Event.restore_state tb pc ∈ evs ↔
          (retaddr ≠ 0 ∧ pc = retaddr ∧ c.tb_find_pc retaddr = some tb)) ∧
        m1.cpu m.cpu_single_env =
          fail_state c cfg (tlb_walk c cfg m addr page_addr is_write mmu_idx).2 retaddr ∧
        (retaddr = 0 → m1.cpu m.cpu_single_env =
          (if cfg = true ∧ c.use_icount ≠ 0
            then c.cpu_restore_icount (tlb_walk c cfg m addr page_addr is_write mmu_idx).2
            else (tlb_walk c cfg m addr page_addr is_write mmu_idx).2))) := by
  constructor
  · intro h
    exact ⟨_, tlb_fill_ok c cfg m addr page_addr is_write mmu_idx retaddr h, rfl, rfl, rfl⟩
  · intro h
    refine ⟨_, fail_events c cfg addr is_write retaddr,
      tlb_fill_fail c cfg m addr page_addr is_write mmu_idx retaddr h, ?_, ?_, ?_, ?_, ?_⟩
    · show _ = _ ++ _ ++ [Event.raise (Function.update m.cpu m.cpu_single_env _
        m.cpu_single_env).exception_index]
      rw [Function.update_same]
    · exact fun tt => fail_events_no_raise c cfg addr is_write retaddr tt
    · exact fun tb pc => fail_events_restore c cfg addr is_write retaddr tb pc
    · show Function.update m.cpu m.cpu_single_env _ m.cpu_single_env = _
      rw [Function.update_same]
    · intro hr
      show Function.update m.cpu m.cpu_single_env _ m.cpu_single_env = _
      rw [Function.update_same]
      simp only [fail_state, hr, ne_eq, not_true_eq_false, if_false]

/-- Witness for `tlb_fill_spec`: a successful walk returns with the `env`
pointer as on entry. -/
theorem tlb_fill_spec_witness :
    ∃ m1, tlb_fill (sample_collab 0 0) false { machine0 with env := 7 } 0 0 0 0 0
        = Outcome.returned m1 ∧
      m1.env = 7 ∧
      m1.cpu = Function.update machine0.cpu 0
        (tlb_walk (sample_collab 0 0) false { machine0 with env := 7 } 0 0 0 0).2 ∧
      m1.log = [] ++ (if false then [Event.on_tlb_miss 0 0] else []) :=
  (tlb_fill_spec (sample_collab 0 0) false { machine0 with env := 7 } 0 0 0 0 0).1 rfl

/-- Counterexample to claim C18 as stated: the walk fails, the return address
`0x1000` is non-null and `tb_find_pc` finds no block for it, and `tlb_fill`
still ends in `raise_exception` with the exception kind 4 left by the walker. -/
theorem tlb_fill_raises_without_block :
    (tlb_walk (sample_collab 1 0) false machine0 0 0 0 0).1 ≠ 0 ∧
    (sample_collab 1 0).tb_find_pc 0x1000 = none ∧
    (tlb_fill (sample_collab 1 0) false machine0 0 0 0 0 0x1000).exits = true ∧
    (tlb_fill (sample_collab 1 0) false machine0 0 0 0 0 0x1000).machine.log = [Event.raise 4] ∧
    ((tlb_fill (sample_collab 1 0) false machine0 0 0 0 0 0x1000).machine.cpu 0).exception_index
      = 4 := by
  refine ⟨by decide, rfl, rfl, rfl, rfl⟩

/-- Claim C18, amended. When the MMU walk fails and a non-null return address
is supplied for which `tb_find_pc` finds no block, `tlb_fill` skips the state
reconstruction and goes on to raise the exception through `raise_exception`,
exactly as it does for a null return address. -/
theorem tlb_fill_missing_block (c : Collab) (cfg : Bool) (m : Machine) (addr page_addr : Nat)
    (is_write mmu_idx : Int) (retaddr : Nat)
    (hfail : (tlb_walk c cfg m addr page_addr is_write mmu_idx).1 ≠ 0)
    (_hret : retaddr ≠ 0) (hnone : c.tb_find_pc retaddr = none) :
    tlb_fill c cfg m addr page_addr is_write mmu_idx retaddr
      = tlb_fill c cfg m addr page_addr is_write mmu_idx 0 ∧
    ∃ m1 evs, tlb_fill c cfg m addr page_addr is_write mmu_idx retaddr = Outcome.exited m1 ∧
      m1.log = m.log ++ evs ++ [Event.raise (m1.cpu m.cpu_single_env).exception_index] ∧
      (∀ tb pc, Event.restore_state tb pc ∉ evs) := by
  have hs : fail_state c cfg (tlb_walk c cfg m addr page_addr is_write mmu_idx).2 retaddr
      = fail_state c cfg (tlb_walk c cfg m addr page_addr is_write mmu_idx).2 0 := by
    simp only [fail_state, hnone, ne_eq, not_true_eq_false, if_false, ite_self]
  have he : fail_events c cfg addr is_write retaddr = fail_events c cfg addr is_write 0 := by
    simp only [fail_events, hnone, ne_eq, not_true_eq_false, if_false, ite_self]
  constructor
  · rw [tlb_fill_fail c cfg m addr page_addr is_write mmu_idx retaddr hfail,
      tlb_fill_fail c cfg m addr page_addr is_write mmu_idx 0 hfail, hs, he]
  · refine ⟨_, fail_events c cfg addr is_write retaddr,
      tlb_fill_fail c cfg m addr page_addr is_write mmu_idx retaddr hfail, ?_, ?_⟩
    · show _ = _ ++ _ ++ [Event.raise (Function.update m.cpu m.cpu_single_env _
        m.cpu_single_env).exception_index]
      rw [Function.update_same]
    · intro tb pc hmem
      have := (fail_events_restore c cfg addr is_write retaddr tb pc).1 hmem
      rw [hnone] at this
      exact Option.noConfusion this.2.2

/-- Witness for `tlb_fill_missing_block` at the return address `0x1000`. -/
theorem tlb_fill_missing_block_witness :
    tlb_fill (sample_collab 1 0) false machine0 0 0 0 0 0x1000
      = tlb_fill (sample_collab 1 0) false machine0 0 0 0 0 0 :=
  (tlb_fill_missing_block (sample_collab 1 0) false machine0 0 0 0 0 0x1000
    (by decide) (by decide) rfl).1

end ArmHelper
